import Mathlib

/-!
Verification development for the Meta-integrated WhatsApp CRM backend.

This file gives a shallow embedding, in Lean 4, of the message-delivery
pipeline of the repository:

* the webhook ingestor (`app/routes/webhooks.py`): signature verification,
  the GET handshake, and the POST event handler;
* the campaign trigger endpoint (`app/routes/campaigns.py`,
  `trigger_campaign_send`);
* the bulk-send campaign worker (`app/service/campaign_worker.py`,
  `send_bulk_campaign`).

Database tables are embedded as lists of records (`app/models.py`); the rows
carry the columns the embedded code reads or writes.  `models.py` in this
revision omits a few Campaign/Business columns that `campaign_worker.py`
reads and writes (`status`, `status_reason`, `total_sent`, `total_failed`,
`daily_quota`, `contact_group_id`); they are modelled as record fields, as
the worker and the data-model section of the documentation use them.

External effects are modelled explicitly:

* the Redis per-tenant daily quota counter is a `Nat` threaded through the
  worker (`INCR` becomes `+ 1`; the `EXPIRE` call sets a TTL only and does
  not change the observable counter value within a run, so it is omitted);
* the Meta Graph send call (`httpx.Client.post`) is an environment function
  from the contact id to the classified outcome of the HTTP call;
* `db.refresh(contact)` re-reads the contact's current status and may see a
  concurrent update, so it is an arbitrary environment function from the
  contact id to a status string;
* HMAC-SHA256 (`hmac.new(...).hexdigest()`) is an abstract environment
  function from the raw body bytes to a hex string, and
  `hmac.compare_digest` is modelled by its Boolean result (it is a
  constant-time string comparison);
* `json.loads` is an abstract environment function from raw bytes to an
  optional parsed payload (`none` models a parse error, which the handler
  does not catch).

SQLAlchemy sessions: the webhook handler commits twice (once for the audit
log, once for all per-item work) and rolls back the second commit if it
fails, e.g. on a unique-constraint violation; this is modelled by an
explicit commit step that keeps the staged state only if the table
constraints of `models.py` (unique `meta_message_id` on messages, unique
`(business_id, phone_number)` on contacts) still hold.  The worker never
rolls back on any path reachable in this model (every exception of the
per-contact send is caught inside the loop), so its session is identified
with the database.
-/

set_option maxRecDepth 4096

/-- A WhatsApp message template (`app/models.py`, `Template`): the worker
reads `campaign.template.name` and `campaign.template.language`. -/
structure Template where
  name : String
  language : Option String
deriving DecidableEq, Repr

/-- A contact row (`app/models.py`, `Contact`).  `groups` holds the ids of
the contact groups the contact is assigned to (association table
`contact_group_assignments`). -/
structure Contact where
  id : Nat
  business_id : Nat
  phone_number : String
  name : Option String
  status : String
  groups : List Nat
deriving DecidableEq, Repr

/-- A tenant row (`app/models.py`, `Business`).  `daily_quota` is read by
the worker's quota check. -/
structure Business where
  id : Nat
  phone_number_id : String
  daily_quota : Nat
  messaging_tier : Option String
deriving DecidableEq, Repr

/-- A campaign row (`app/models.py`, `Campaign`), with the lifecycle fields
used by `campaign_worker.py` and `routes/campaigns.py`.  The template
relationship is embedded directly; runs reaching the send loop resolve it
(`campaign.template.name`). -/
structure Campaign where
  id : Nat
  business_id : Nat
  template : Template
  contact_group_id : Option Nat
  status : String
  status_reason : Option String
  total_sent : Option Nat
  total_failed : Option Nat
deriving DecidableEq, Repr

/-- A message-ledger row (`app/models.py`, `Message`).  `meta_message_id`
is the provider message id, nullable and unique when present. -/
structure Message where
  business_id : Nat
  contact_id : Nat
  campaign_id : Option Nat
  meta_message_id : Option String
  direction : String
  status : String
deriving DecidableEq, Repr

/-- One inbound message item of a webhook payload
(`value["messages"][i]` in `handle_whatsapp_events`): the handler reads
`msg.get("from")`, `msg.get("id")` and
`msg.get("text", {}).get("body", "")`. -/
structure InboundMsg where
  from_phone : String
  msg_id : Option String
  text_body : String
deriving DecidableEq, Repr

/-- One status-update item of a webhook payload (`value["statuses"][i]`):
the handler reads `stat.get("id")` and `stat.get("status")`. -/
structure StatusItem where
  msg_id : Option String
  status_value : Option String
deriving DecidableEq, Repr

/-- One `change.value` object of a webhook payload: metadata phone number
id, the profile name of `value["contacts"][0]` when present, and the two
item arrays. -/
structure ChangeValue where
  phone_number_id : Option String
  profile_name : Option String
  messages : List InboundMsg
  statuses : List StatusItem
deriving DecidableEq, Repr

/-- A parsed webhook POST body: `payload["entry"]`, each entry holding
`entry["changes"]`, each change holding a `value`. -/
structure WebhookPayload where
  entries : List (List ChangeValue)
deriving DecidableEq, Repr

/-- The database state: one list per table of `app/models.py` that the
embedded code touches.  `webhook_logs` stores the audit-log payloads
(`WebhookLog.payload`). -/
structure DB where
  businesses : List Business
  contacts : List Contact
  campaigns : List Campaign
  messages : List Message
  webhook_logs : List WebhookPayload
deriving DecidableEq, Repr

/-- `db.query(Campaign).filter(Campaign.id == campaign_id).first()`. -/
def findCampaign (db : DB) (cid : Nat) : Option Campaign :=
  db.campaigns.find? (fun c => c.id == cid)

/-- `db.query(Business).filter(Business.id == business_id).first()`. -/
def findBusiness (db : DB) (bid : Nat) : Option Business :=
  db.businesses.find? (fun b => b.id == bid)

/-- `db.query(Business).filter(Business.phone_number_id == pnid).first()`
(webhook tenant resolution). -/
def findBusinessByPhoneId (db : DB) (pnid : String) : Option Business :=
  db.businesses.find? (fun b => b.phone_number_id == pnid)

/-- `db.query(Contact).filter(Contact.phone_number == phone,
Contact.business_id == bid).first()`. -/
def findContact (db : DB) (phone : String) (bid : Nat) : Option Contact :=
  db.contacts.find? (fun c => c.phone_number == phone && c.business_id == bid)

/-- Mutating the campaign row fetched by id: attribute assignments on the
ORM object followed by a commit. -/
def setCampaign (db : DB) (cid : Nat) (f : Campaign → Campaign) : DB :=
  { db with campaigns := db.campaigns.map (fun c => if c.id == cid then f c else c) }

/-- `contact.status = s` on the contact row with the given id. -/
def setContactStatus (db : DB) (i : Nat) (s : String) : DB :=
  { db with contacts := db.contacts.map (fun c => if c.id == i then { c with status := s } else c) }

/-- `db.add(Message(...))`: the new row becomes visible to later queries of
the same session (autoflush) and is persisted by the next commit. -/
def addMessage (db : DB) (m : Message) : DB :=
  { db with messages := db.messages ++ [m] }

/-- The status of the campaign row with the given id, if present. -/
def statusOf (db : DB) (cid : Nat) : Option String :=
  (findCampaign db cid).map (fun c => c.status)

/-- The `status_reason` of the campaign row with the given id. -/
def reasonOf (db : DB) (cid : Nat) : Option String :=
  (findCampaign db cid).bind (fun c => c.status_reason)

/-- All present provider message ids in the ledger, in row order. -/
def msgIds (db : DB) : List String :=
  db.messages.filterMap (fun m => m.meta_message_id)

/-- The `(business_id, phone_number)` key of every contact row. -/
def contactKeys (db : DB) : List (Nat × String) :=
  db.contacts.map (fun c => (c.business_id, c.phone_number))

/-- The unique constraints of `app/models.py` that inserts can violate:
`Message.meta_message_id` is unique when present, and contacts are unique
per `(business_id, phone_number)`.  A commit whose staged inserts break one
of these raises and is rolled back. -/
def uniqueOk (db : DB) : Prop :=
  (msgIds db).Nodup ∧ (contactKeys db).Nodup

instance instDecUniqueOk (db : DB) : Decidable (uniqueOk db) :=
  inferInstanceAs (Decidable ((msgIds db).Nodup ∧ (contactKeys db).Nodup))

/-- Number of ledger rows carrying the given provider message id. -/
def msgIdCount (db : DB) (mid : String) : Nat :=
  (db.messages.filter (fun m => m.meta_message_id == some mid)).length

/-- All ledger rows of one contact. -/
def msgsForContact (db : DB) (i : Nat) : List Message :=
  db.messages.filter (fun m => m.contact_id == i)

/-- `db.query(Message).filter_by(campaign_id=campaign_id,
contact_id=contact.id).first()` turned into a Boolean existence check. -/
def pairExistsB (db : DB) (cid i : Nat) : Bool :=
  db.messages.any (fun m => m.campaign_id == some cid && m.contact_id == i)

/-- Number of ledger rows for one `(campaign, contact)` pair. -/
def pairCount (db : DB) (cid i : Nat) : Nat :=
  (db.messages.filter (fun m => m.campaign_id == some cid && m.contact_id == i)).length

/-! ### String primitives

Python's `str.strip`, `str.upper`, `str.split(sep)` and `int(str)` are
modelled directly over the character list of a string. -/

/-- The ASCII whitespace characters stripped by Python's `str.strip()`. -/
def isPySpace (c : Char) : Bool :=
  c == ' ' || c == '\t' || c == '\n' || c == '\r' || c == '\x0b' || c == '\x0c'

/-- Strip leading and trailing whitespace from a character list. -/
def trimChars (l : List Char) : List Char :=
  ((l.dropWhile isPySpace).reverse.dropWhile isPySpace).reverse

/-- Python's `str.strip()`. -/
def pyStrip (s : String) : String :=
  String.mk (trimChars s.toList)

/-- Python's `str.upper()` (ASCII). -/
def pyUpper (s : String) : String :=
  String.mk (s.toList.map Char.toUpper)

/-- Split a character list on every occurrence of `sep`; like Python's
`str.split(sep)` this yields one (possibly empty) part more than there
are separators. -/
def splitOnChar (sep : Char) : List Char → List (List Char)
  | [] => [[]]
  | c :: rest =>
    let r := splitOnChar sep rest
    if c == sep then [] :: r
    else
      match r with
      | h :: t => (c :: h) :: t
      | [] => [[c]]

/-- Python's `s.split('=')` and `s.split('_')` etc. for a one-character
separator. -/
def pySplit (sep : Char) (s : String) : List String :=
  (splitOnChar sep s.toList).map String.mk

/-! ### Webhook signature verification (`app/routes/webhooks.py`, lines 15-32) -/

/-- Outcome of `verify_signature`: a Boolean return, or an uncaught
`ValueError` from unpacking `signature.split('=')` into two names when the
header contains more than one `=`. -/
inductive VerifyResult where
  | ok (b : Bool)
  | valueError
deriving DecidableEq, Repr

/-- `verify_signature(payload, signature)`.  `hmacHex raw` stands for
`hmac.new(META_CLIENT_SECRET, msg=raw, sha256).hexdigest()`; the final
`hmac.compare_digest` is modelled by its Boolean result.  A missing or
empty header is falsy in Python, so it returns `False` before splitting.
`signature.split('=')` splits on every `=`; the two-name unpacking raises
`ValueError` unless the header contains exactly one `=`. -/
def verify_signature (hmacHex : List Nat → String) (payload : List Nat)
    (signature : Option String) : VerifyResult :=
  match signature with
  | none => .ok false
  | some s =>
    if s.toList.isEmpty then .ok false
    else
      match pySplit '=' s with
      | [_] => .ok false
      | [t, h] => if t == "sha256" then .ok (hmacHex payload == h) else .ok false
      | _ => .valueError

/-! ### Webhook GET handshake (`app/routes/webhooks.py`, lines 35-51) -/

/-- Value of a list of decimal digit characters. -/
def digitsToNat (l : List Char) : Nat :=
  l.foldl (fun a c => a * 10 + (c.toNat - 48)) 0

/-- Python's `int(str)` on a decimal string: optional surrounding
whitespace, an optional sign, then digits, with `_` allowed as a separator
between digit groups.  `none` models the `ValueError`/`TypeError` raised on
anything else (non-decimal bases and non-ASCII digits are out of scope for
query parameters here). -/
def pyIntOfString (s : String) : Option Int :=
  match trimChars s.toList with
  | '-' :: rest =>
    if (splitOnChar '_' rest).all (fun p => !p.isEmpty && p.all Char.isDigit) then
      some (-(digitsToNat (rest.filter Char.isDigit) : Int))
    else none
  | '+' :: rest =>
    if (splitOnChar '_' rest).all (fun p => !p.isEmpty && p.all Char.isDigit) then
      some (digitsToNat (rest.filter Char.isDigit) : Int)
    else none
  | rest =>
    if (splitOnChar '_' rest).all (fun p => !p.isEmpty && p.all Char.isDigit) then
      some (digitsToNat (rest.filter Char.isDigit) : Int)
    else none

/-- Response of the GET handshake: `return int(challenge)` serialised by
FastAPI, `HTTPException(403)`, or an uncaught exception (HTTP 500) when
`int(challenge)` fails. -/
inductive HandshakeResponse where
  | challenge (n : Int)
  | forbidden403
  | serverError500
deriving DecidableEq, Repr

/-- `verify_meta_webhook(request)` over the three query parameters.
`verifyToken` is `settings.META_WEBHOOK_VERIFY_TOKEN`. -/
def verify_meta_webhook (verifyToken : String)
    (mode token challenge : Option String) : HandshakeResponse :=
  if mode == some "subscribe" && token == some verifyToken then
    match challenge with
    | none => .serverError500
    | some c =>
      match pyIntOfString c with
      | some n => .challenge n
      | none => .serverError500
  else .forbidden403

/-- The HTTP response body produced for a handshake response: a returned
`int` is serialised as its decimal rendering. -/
def renderChallenge : HandshakeResponse → Option String
  | .challenge n => some (toString n)
  | _ => none

/-! ### Webhook POST event handler (`app/routes/webhooks.py`, lines 54-151) -/

/-- HTTP outcome of the POST handler: the fixed success acknowledgement,
`HTTPException(403)`, or an uncaught exception (HTTP 500). -/
inductive HookResponse where
  | ok200
  | forbidden403
  | serverError500
deriving DecidableEq, Repr

/-- Environment of the POST handler: the HMAC hex digest of the configured
secret over raw bytes, and `json.loads`. -/
structure HookEnv where
  hmacHex : List Nat → String
  parseJson : List Nat → Option WebhookPayload

/-- Python's `str.capitalize()`: first character uppercased, the rest
lowercased (`new_status.capitalize()`). -/
def pyCapitalize (s : String) : String :=
  match s.toList with
  | [] => ""
  | c :: rest => String.mk (c.toUpper :: rest.map Char.toLower)

/-- `text_body.strip().upper()`. -/
def normUpper (s : String) : String :=
  pyUpper (pyStrip s)

/-- A fresh primary key for a contact created by the handler (the real ids
are generated UUIDs; freshness is what matters). -/
def freshContactId (db : DB) : Nat :=
  (db.contacts.map (fun c => c.id)).foldr max 0 + 1

/-- Per-item processing of one inbound message (lines 91-124): find or
create the contact by `(phone, business)`, flush, latch `Opt-out` when the
normalised body is `STOP`, then stage an `In` ledger row with the
provider's message id.  No check for an existing row with the same
provider id is made here. -/
def processInboundMsg (biz : Business) (profile : Option String)
    (db : DB) (m : InboundMsg) : DB :=
  match findContact db m.from_phone biz.id with
  | some c =>
    let db2 := if normUpper m.text_body == "STOP" then setContactStatus db c.id "Opt-out" else db
    addMessage db2 ⟨biz.id, c.id, none, m.msg_id, "In", "Delivered"⟩
  | none =>
    let nid := freshContactId db
    let db1 := { db with contacts := db.contacts ++
        [⟨nid, biz.id, m.from_phone, some (profile.getD "Unknown"), "Active", []⟩] }
    let db2 := if normUpper m.text_body == "STOP" then setContactStatus db1 nid "Opt-out" else db1
    addMessage db2 ⟨biz.id, nid, none, m.msg_id, "In", "Delivered"⟩

/-- Update the status of the first ledger row whose provider id matches
(`...first()` then `message_record.status = ...`). -/
def setFirstStatus (key : Option String) (v : String) : List Message → List Message
  | [] => []
  | m :: rest =>
    if m.meta_message_id == key then { m with status := v } :: rest
    else m :: setFirstStatus key v rest

/-- Per-item processing of one status update (lines 130-143): look up the
ledger row by provider id; when it exists, overwrite its status with the
capitalised incoming value.  A missing `status` field raises inside the
per-item `try` and is swallowed (no change); a missing row is dropped. -/
def processStatusItem (db : DB) (s : StatusItem) : DB :=
  match db.messages.find? (fun m => m.meta_message_id == s.msg_id) with
  | none => db
  | some _ =>
    match s.status_value with
    | none => db
    | some v => { db with messages := setFirstStatus s.msg_id (pyCapitalize v) db.messages }

/-- Processing of one `change.value` (lines 80-143): resolve the tenant by
the metadata phone number id (skip the value if unresolvable), then
process its inbound messages, then its status updates. -/
def processValue (db : DB) (v : ChangeValue) : DB :=
  match v.phone_number_id with
  | none => db
  | some pnid =>
    match findBusinessByPhoneId db pnid with
    | none => db
    | some biz =>
      let db1 := v.messages.foldl (processInboundMsg biz v.profile_name) db
      v.statuses.foldl processStatusItem db1

/-- The nested `for entry / for change` loops (lines 77-143). -/
def processEntries (db : DB) (p : WebhookPayload) : DB :=
  p.entries.foldl (fun acc changes => changes.foldl processValue acc) db

/-- `handle_whatsapp_events(request)` (lines 54-151): verify the signature
over the raw body before anything else; parse the body; commit the audit
log row; process every item in the session; finally commit, rolling back
to the post-audit-log state when the commit violates a table constraint
(the handler catches the failure, rolls back, and still acknowledges). -/
def handle_whatsapp_events (env : HookEnv) (db : DB) (raw : List Nat)
    (signature : Option String) : HookResponse × DB :=
  match verify_signature env.hmacHex raw signature with
  | .valueError => (.serverError500, db)
  | .ok false => (.forbidden403, db)
  | .ok true =>
    match env.parseJson raw with
    | none => (.serverError500, db)
    | some payload =>
      let dbLogged := { db with webhook_logs := db.webhook_logs ++ [payload] }
      let dbWork := processEntries dbLogged payload
      if uniqueOk dbWork then (.ok200, dbWork) else (.ok200, dbLogged)

/-- A payload holding a single entry with a single change whose value
carries exactly one inbound message and no status updates. -/
def singleMsgPayload (pnid phone mid text : String) : WebhookPayload :=
  ⟨[[⟨some pnid, none, [⟨phone, some mid, text⟩], []⟩]]⟩

/-! ### Campaign trigger endpoint (`app/routes/campaigns.py`, lines 59-88) -/

/-- Response of `trigger_campaign_send`: 404, the 400 "already been
processed" rejection, or the success acknowledgement. -/
inductive TriggerResponse where
  | notFound404
  | alreadyProcessed400
  | queuedOk
deriving DecidableEq, Repr

/-- Result of the trigger endpoint; `enqueuedJobs` records the
`send_bulk_campaign.delay(campaign_id, business_id)` calls made. -/
structure TriggerResult where
  db : DB
  response : TriggerResponse
  enqueuedJobs : List (Nat × Nat)
deriving Repr

/-- `trigger_campaign_send(campaign_id)` for a user of the given business:
look up the campaign scoped to the business; reject only when its status
is `"Sent"`; otherwise set the status to `"Queued"`, commit, and enqueue
the worker job. -/
def trigger_campaign_send (db : DB) (campaign_id user_business : Nat) : TriggerResult :=
  match db.campaigns.find? (fun c => c.id == campaign_id && c.business_id == user_business) with
  | none => ⟨db, .notFound404, []⟩
  | some c =>
    if c.status == "Sent" then ⟨db, .alreadyProcessed400, []⟩
    else
      ⟨setCampaign db campaign_id (fun k => { k with status := "Queued" }),
       .queuedOk, [(campaign_id, user_business)]⟩

/-! ### Campaign worker (`app/service/campaign_worker.py`, lines 26-140) -/

/-- Classified outcome of the per-contact `client.post` call:
HTTP 200 with the provider message id, HTTP 429, any other HTTP status,
or an exception caught by the inner `try`. -/
inductive SendResult where
  | ok (meta_id : String)
  | rateLimited
  | httpFailure
  | netException
deriving DecidableEq, Repr

/-- Worker environment: `db.refresh(contact)` re-reads the contact status
(possibly concurrently updated), and `send` is the Graph API call for a
contact. -/
structure WorkerEnv where
  refreshStatus : Nat → String
  send : Nat → SendResult

/-- The eligible-contact query (lines 48-54): tenant contacts with status
`"Active"`, optionally restricted to the campaign's contact group. -/
def eligibleContacts (db : DB) (camp : Campaign) (bid : Nat) : List Contact :=
  let base := db.contacts.filter (fun c => c.business_id == bid && c.status == "Active")
  match camp.contact_group_id with
  | some g => base.filter (fun c => c.groups.contains g)
  | none => base

/-- The worker's `return` value (lines 36, 81, 113, 131), as a closed
variant: `"FAILURE: Missing Entities"`, `"PAUSED: Quota reached."`,
`"PAUSED: Meta 429"`, and `"SUCCESS: {sent} sent."`. -/
inductive RunRetval where
  | missingEntities
  | pausedQuota
  | paused429
  | success (sent : Nat)
deriving DecidableEq, Repr

/-- Mutable state of the send loop: the session/database view, the Redis
counter, the two local counters, and (as an observation) the list of
contact ids for which the send call was dispatched. -/
structure LoopState where
  db : DB
  quota : Nat
  sent : Nat
  failed : Nat
  attempts : List Nat
deriving Repr

/-- The `for contact in contacts` loop (lines 62-124).  Per contact:
re-check the refreshed status; skip when a `(campaign, contact)` ledger
row already exists; `INCR` the quota counter and pause the campaign with
reason `"Quota reached."` when usage exceeds the tenant's daily quota;
otherwise dispatch the send and classify: 200 stages an `Out` row and
bumps `sent_count`; 429 pauses the campaign (no reason is written) and
returns; anything else bumps `failed_count`.  The periodic `db.commit()`
every 10 sends and the `time.sleep(delay)` throttle do not change the
session-as-database view and are omitted. -/
def runLoop (env : WorkerEnv) (cid bid dq : Nat) :
    List Contact → LoopState → LoopState × Option RunRetval
  | [], st => (st, none)
  | c :: rest, st =>
    if env.refreshStatus c.id != "Active" then
      runLoop env cid bid dq rest st
    else if pairExistsB st.db cid c.id then
      runLoop env cid bid dq rest st
    else
      let usage := st.quota + 1
      if dq < usage then
        ({ st with
            db := setCampaign st.db cid
              (fun k => { k with status := "Paused", status_reason := some "Quota reached." }),
            quota := usage },
         some .pausedQuota)
      else
        match env.send c.id with
        | .ok mid =>
          runLoop env cid bid dq rest
            { st with
                db := addMessage st.db ⟨bid, c.id, some cid, some mid, "Out", "Sent"⟩,
                quota := usage, sent := st.sent + 1, attempts := st.attempts ++ [c.id] }
        | .rateLimited =>
          ({ st with
              db := setCampaign st.db cid (fun k => { k with status := "Paused" }),
              quota := usage, attempts := st.attempts ++ [c.id] },
           some .paused429)
        | .httpFailure =>
          runLoop env cid bid dq rest
            { st with quota := usage, failed := st.failed + 1, attempts := st.attempts ++ [c.id] }
        | .netException =>
          runLoop env cid bid dq rest
            { st with quota := usage, failed := st.failed + 1, attempts := st.attempts ++ [c.id] }

/-- Result of one worker invocation; `sentCount`/`failedCount` are the
final values of the local counters, `attempts` the dispatched send calls. -/
structure RunResult where
  db : DB
  quota : Nat
  sentCount : Nat
  failedCount : Nat
  attempts : List Nat
  retval : RunRetval
deriving Repr

/-- `send_bulk_campaign(campaign_id, business_id)` (lines 26-140) for one
run segment.  `quota0` is the Redis counter value for the tenant's daily
key at entry.  Fetch the campaign and business (failure return when either
is missing); set the campaign to `Running` and commit; resolve the
eligible contacts; run the loop seeded with `total_sent or 0` and
`total_failed or 0`; on normal exit set `Completed` and persist the
counters.  The early returns leave `total_sent`/`total_failed` untouched. -/
def send_bulk_campaign (env : WorkerEnv) (cid bid : Nat) (db : DB)
    (quota0 : Nat) : RunResult :=
  match findCampaign db cid, findBusiness db bid with
  | some campaign, some business =>
    let db1 := setCampaign db cid (fun k => { k with status := "Running" })
    let contacts := eligibleContacts db1 campaign bid
    let st0 : LoopState :=
      ⟨db1, quota0, campaign.total_sent.getD 0, campaign.total_failed.getD 0, []⟩
    match runLoop env cid bid business.daily_quota contacts st0 with
    | (st, some r) => ⟨st.db, st.quota, st.sent, st.failed, st.attempts, r⟩
    | (st, none) =>
      ⟨setCampaign st.db cid
         (fun k => { k with status := "Completed",
                            total_sent := some st.sent, total_failed := some st.failed }),
       st.quota, st.sent, st.failed, st.attempts, .success st.sent⟩
  | _, _ => ⟨db, quota0, 0, 0, [], .missingEntities⟩

/-! ### Concrete instances

Small concrete databases, environments and runs used by the closed
counterexample and witness theorems below. -/

/-- A template used by the concrete campaigns. -/
def tplW : Template := ⟨"promo", some "en_US"⟩

/-- A tenant with a daily quota of 10. -/
def bizW : Business := ⟨1, "pn1", 10, some "TIER_250"⟩

/-- A tenant with a daily quota of 250. -/
def bizW250 : Business := ⟨1, "pn1", 250, some "TIER_250"⟩

/-- A draft campaign of tenant 1 with no counters persisted yet. -/
def campW : Campaign := ⟨1, 1, tplW, none, "Draft", none, none, none⟩

/-- A campaign of tenant 1 currently in status `Running`. -/
def campRunning : Campaign := ⟨1, 1, tplW, none, "Running", none, none, none⟩

/-- Two active contacts of tenant 1. -/
def conW1 : Contact := ⟨1, 1, "p1", some "A", "Active", []⟩

/-- Second active contact of tenant 1. -/
def conW2 : Contact := ⟨2, 1, "p2", some "B", "Active", []⟩

/-- Worker database: one tenant (quota 10), two active contacts, one draft
campaign, empty ledger. -/
def dbW : DB := ⟨[bizW], [conW1, conW2], [campW], [], []⟩

/-- Worker database for the daily-quota-250 scenario: tenant with quota
250 and one active contact. -/
def dbW250 : DB := ⟨[bizW250], [conW1], [campW], [], []⟩

/-- An `Out` ledger row of campaign 1 for contact 1, from an earlier run
segment. -/
def msgPair : Message := ⟨1, 1, some 1, some "w0", "Out", "Sent"⟩

/-- Worker database in which campaign 1 already sent to contact 1 in an
earlier segment. -/
def dbWPair : DB := ⟨[bizW], [conW1, conW2], [campW], [msgPair], []⟩

/-- Worker database with the campaign in status `Running` (for the
repeated-trigger scenario). -/
def dbWRunning : DB := ⟨[bizW], [conW1, conW2], [campRunning], [], []⟩

/-- Environment of the first run segment of the resume scenario: contact 1
succeeds, contact 2 is answered with HTTP 429. -/
def envSeg1 : WorkerEnv := ⟨fun _ => "Active", fun i => if i == 1 then .ok "w1" else .rateLimited⟩

/-- Environment of the second run segment: every send succeeds. -/
def envSeg2 : WorkerEnv := ⟨fun _ => "Active", fun _ => .ok "w2"⟩

/-- Environment in which every send succeeds. -/
def envOk : WorkerEnv := ⟨fun _ => "Active", fun _ => .ok "w1"⟩

/-- Environment in which every send is answered with HTTP 429. -/
def env429 : WorkerEnv := ⟨fun _ => "Active", fun _ => .rateLimited⟩

/-- Environment in which every refreshed contact status reads `Opt-out`. -/
def envOpt : WorkerEnv := ⟨fun _ => "Opt-out", fun _ => .ok "w1"⟩

/-- Environment in which the send to contact 1 fails with a non-429 HTTP
error and every other send succeeds. -/
def envFail1 : WorkerEnv := ⟨fun _ => "Active", fun i => if i == 1 then .httpFailure else .ok "w2"⟩

/-- First run segment of the resume scenario: contact 1 is sent, the 429
for contact 2 pauses the campaign. -/
def runSeg1 : RunResult := send_bulk_campaign envSeg1 1 1 dbW 0

/-- Second run segment after the re-trigger: contact 1 is skipped (ledger
row exists), contact 2 is sent, the campaign completes. -/
def runSeg2 : RunResult := send_bulk_campaign envSeg2 1 1 runSeg1.db runSeg1.quota

/-- Webhook environment: an abstract digest making `"sha256=sig"` the
valid signature, and a parser returning the single-message payload with
provider id `mid1` for tenant phone-number id `pn1`. -/
def envHook : HookEnv := ⟨fun _ => "sig", fun _ => some (singleMsgPayload "pn1" "555" "mid1" "hello")⟩

/-- Webhook database: one tenant, no contacts, empty ledger. -/
def dbHook : DB := ⟨[bizW], [], [], [], []⟩

/-- A contact of tenant 1 already known under the phone of the concrete
inbound message. -/
def conHook : Contact := ⟨1, 1, "555", some "X", "Active", []⟩

/-- An inbound ledger row already stored for provider id `m1`. -/
def msgHook : Message := ⟨1, 1, none, some "m1", "In", "Delivered"⟩

/-- Webhook database that already stores a ledger row with provider id
`m1` for the inbound sender. -/
def dbHookDup : DB := ⟨[bizW], [conHook], [], [msgHook], []⟩

/-! ### Helper lemmas

Small facts about the table operations and the worker loop, shared by the
claim theorems below. -/

theorem setCampaign_messages (db : DB) (cid : Nat) (f : Campaign → Campaign) :
    (setCampaign db cid f).messages = db.messages := rfl

theorem setCampaign_contacts (db : DB) (cid : Nat) (f : Campaign → Campaign) :
    (setCampaign db cid f).contacts = db.contacts := rfl

theorem msgsForContact_setCampaign (db : DB) (cid : Nat) (f : Campaign → Campaign) (i : Nat) :
    msgsForContact (setCampaign db cid f) i = msgsForContact db i := rfl

theorem pairExistsB_setCampaign (db : DB) (c1 : Nat) (f : Campaign → Campaign) (cid i : Nat) :
    pairExistsB (setCampaign db c1 f) cid i = pairExistsB db cid i := rfl

theorem pairCount_setCampaign (db : DB) (c1 : Nat) (f : Campaign → Campaign) (cid i : Nat) :
    pairCount (setCampaign db c1 f) cid i = pairCount db cid i := rfl

theorem eligibleContacts_setCampaign (db : DB) (c1 : Nat) (f : Campaign → Campaign)
    (camp : Campaign) (bid : Nat) :
    eligibleContacts (setCampaign db c1 f) camp bid = eligibleContacts db camp bid := rfl

theorem msgsForContact_addMessage_ne (db : DB) (m : Message) (i : Nat)
    (h : m.contact_id ≠ i) :
    msgsForContact (addMessage db m) i = msgsForContact db i := by
  have hb : (m.contact_id == i) = false := beq_eq_false_iff_ne.mpr h
  unfold msgsForContact addMessage
  simp [List.filter_append, List.filter, hb]

theorem pairExistsB_addMessage_mono (db : DB) (m : Message) (cid i : Nat)
    (h : pairExistsB db cid i = true) :
    pairExistsB (addMessage db m) cid i = true := by
  unfold pairExistsB addMessage at *
  simp [List.any_append, h]

theorem pairExistsB_addMessage_ne (db : DB) (m : Message) (cid i : Nat)
    (h : m.contact_id ≠ i) :
    pairExistsB (addMessage db m) cid i = pairExistsB db cid i := by
  have hb : (m.contact_id == i) = false := beq_eq_false_iff_ne.mpr h
  unfold pairExistsB addMessage
  simp [List.any_append, hb]

theorem pairCount_addMessage_ne (db : DB) (m : Message) (cid i : Nat)
    (h : m.contact_id ≠ i) :
    pairCount (addMessage db m) cid i = pairCount db cid i := by
  have hb : (m.contact_id == i) = false := beq_eq_false_iff_ne.mpr h
  unfold pairCount addMessage
  simp [List.filter_append, List.filter, hb]

theorem find?_id_map (cid : Nat) (f : Campaign → Campaign) (hf : ∀ c, (f c).id = c.id) :
    ∀ l : List Campaign,
      List.find? (fun c => c.id == cid) (l.map (fun c => if c.id == cid then f c else c)) =
      Option.map f (List.find? (fun c => c.id == cid) l)
  | [] => rfl
  | c :: l => by
    by_cases h : c.id = cid
    · have hpc : ((if c.id == cid then f c else c) = f c) := by simp [h]
      rw [List.map_cons, hpc, List.find?_cons_of_pos _ (by simp [hf, h]),
        List.find?_cons_of_pos _ (by simp [h])]
      rfl
    · have hpc : ((if c.id == cid then f c else c) = c) := by simp [h]
      rw [List.map_cons, hpc, List.find?_cons_of_neg _ (by simp [h]),
        List.find?_cons_of_neg _ (by simp [h])]
      exact find?_id_map cid f hf l

theorem findCampaign_setCampaign (db : DB) (cid : Nat) (f : Campaign → Campaign)
    (hf : ∀ c, (f c).id = c.id) :
    findCampaign (setCampaign db cid f) cid = (findCampaign db cid).map f := by
  unfold findCampaign setCampaign
  exact find?_id_map cid f hf db.campaigns

theorem mem_eligible {db : DB} {camp : Campaign} {bid : Nat} {c : Contact}
    (h : c ∈ eligibleContacts db camp bid) : c ∈ db.contacts ∧ c.status = "Active" := by
  unfold eligibleContacts at h
  cases hg : camp.contact_group_id with
  | none =>
    rw [hg] at h
    simp [List.mem_filter] at h
    exact ⟨by tauto, by tauto⟩
  | some g =>
    rw [hg] at h
    simp [List.mem_filter] at h
    exact ⟨by tauto, by tauto⟩

theorem runLoop_attempts_mem (env : WorkerEnv) (cid bid dq : Nat) :
    ∀ (l : List Contact) (st : LoopState) (a : Nat),
      a ∈ st.attempts → a ∈ (runLoop env cid bid dq l st).1.attempts
  | [], _, _, h => h
  | c :: rest, st, a, h => by
    simp only [runLoop]
    split
    · exact runLoop_attempts_mem env cid bid dq rest st a h
    · split
      · exact runLoop_attempts_mem env cid bid dq rest st a h
      · split
        · simpa using h
        · split
          · exact runLoop_attempts_mem env cid bid dq rest _ a (by simp [h])
          · simpa using Or.inl h
          · exact runLoop_attempts_mem env cid bid dq rest _ a (by simp [h])
          · exact runLoop_attempts_mem env cid bid dq rest _ a (by simp [h])

theorem runLoop_skips (env : WorkerEnv) (cid bid dq i : Nat) :
    ∀ (l : List Contact) (st : LoopState),
      (∀ c ∈ l, c.id = i → env.refreshStatus i ≠ "Active") →
      i ∉ st.attempts →
      i ∉ (runLoop env cid bid dq l st).1.attempts ∧
      msgsForContact (runLoop env cid bid dq l st).1.db i = msgsForContact st.db i
  | [], st, _, hna => ⟨hna, rfl⟩
  | c :: rest, st, hl, hna => by
    have hrest : ∀ x ∈ rest, x.id = i → env.refreshStatus i ≠ "Active" :=
      fun x hx => hl x (List.mem_cons_of_mem c hx)
    have hcid : c.id = i → env.refreshStatus i ≠ "Active" := hl c (List.mem_cons_self c rest)
    simp only [runLoop]
    split
    · exact runLoop_skips env cid bid dq i rest st hrest hna
    · next href =>
      have hrefA : env.refreshStatus c.id = "Active" := by
        have hx := href
        simp only [bne_iff_ne, ne_eq, not_not] at hx
        exact hx
      have hne : c.id ≠ i := by
        intro he
        exact (hcid he) (he ▸ hrefA)
      have hnm : i ∉ st.attempts ++ [c.id] := by
        simp only [List.mem_append, List.mem_singleton]
        rintro (h | h)
        · exact hna h
        · exact hne h.symm
      split
      · exact runLoop_skips env cid bid dq i rest st hrest hna
      · split
        · exact ⟨by simpa using hna, by simp [msgsForContact_setCampaign]⟩
        · split
          · next mid heq =>
            have h1 := runLoop_skips env cid bid dq i rest
              { st with db := addMessage st.db ⟨bid, c.id, some cid, some mid, "Out", "Sent"⟩,
                        quota := st.quota + 1, sent := st.sent + 1,
                        attempts := st.attempts ++ [c.id] } hrest hnm
            refine ⟨h1.1, ?_⟩
            rw [h1.2]
            exact msgsForContact_addMessage_ne st.db _ i hne
          · exact ⟨by simpa using hnm, by simp [msgsForContact_setCampaign]⟩
          · have h1 := runLoop_skips env cid bid dq i rest
              { st with quota := st.quota + 1, failed := st.failed + 1,
                        attempts := st.attempts ++ [c.id] } hrest hnm
            exact ⟨h1.1, h1.2⟩
          · have h1 := runLoop_skips env cid bid dq i rest
              { st with quota := st.quota + 1, failed := st.failed + 1,
                        attempts := st.attempts ++ [c.id] } hrest hnm
            exact ⟨h1.1, h1.2⟩
theorem send_bulk_campaign_loop (env : WorkerEnv) (cid bid : Nat) (db : DB) (q : Nat)
    (camp : Campaign) (biz : Business) (st : LoopState) (e : Option RunRetval)
    (hc : findCampaign db cid = some camp) (hb : findBusiness db bid = some biz)
    (hr : runLoop env cid bid biz.daily_quota
        (eligibleContacts (setCampaign db cid (fun k => { k with status := "Running" })) camp bid)
        ⟨setCampaign db cid (fun k => { k with status := "Running" }), q,
          camp.total_sent.getD 0, camp.total_failed.getD 0, []⟩ = (st, e)) :
    send_bulk_campaign env cid bid db q =
      match e with
      | some r => ⟨st.db, st.quota, st.sent, st.failed, st.attempts, r⟩
      | none =>
        ⟨setCampaign st.db cid
           (fun k => { k with status := "Completed",
                              total_sent := some st.sent, total_failed := some st.failed }),
         st.quota, st.sent, st.failed, st.attempts, .success st.sent⟩ := by
  unfold send_bulk_campaign
  rw [hc, hb]
  simp only [hr]
  cases e <;> rfl


theorem findCampaign_addMessage (db : DB) (m : Message) (cid : Nat) :
    findCampaign (addMessage db m) cid = findCampaign db cid := rfl

theorem runLoop_pair_skip (env : WorkerEnv) (cid bid dq i : Nat) :
    ∀ (l : List Contact) (st : LoopState),
      pairExistsB st.db cid i = true →
      i ∉ st.attempts →
      i ∉ (runLoop env cid bid dq l st).1.attempts ∧
      pairCount (runLoop env cid bid dq l st).1.db cid i = pairCount st.db cid i
  | [], st, _, hna => ⟨hna, rfl⟩
  | c :: rest, st, hp, hna => by
    simp only [runLoop]
    split
    · exact runLoop_pair_skip env cid bid dq i rest st hp hna
    · split
      · exact runLoop_pair_skip env cid bid dq i rest st hp hna
      · next hpc =>
        have hne : c.id ≠ i := by
          intro he
          rw [he] at hpc
          exact hpc hp
        have hnm : i ∉ st.attempts ++ [c.id] := by
          simp only [List.mem_append, List.mem_singleton]
          rintro (h | h)
          · exact hna h
          · exact hne h.symm
        split
        · exact ⟨by simpa using hna, by simp [pairCount_setCampaign]⟩
        · split
          · next mid heq =>
            have hp2 : pairExistsB
                (addMessage st.db ⟨bid, c.id, some cid, some mid, "Out", "Sent"⟩) cid i = true :=
              pairExistsB_addMessage_mono st.db _ cid i hp
            have h1 := runLoop_pair_skip env cid bid dq i rest
              { st with db := addMessage st.db ⟨bid, c.id, some cid, some mid, "Out", "Sent"⟩,
                        quota := st.quota + 1, sent := st.sent + 1,
                        attempts := st.attempts ++ [c.id] } hp2 hnm
            refine ⟨h1.1, ?_⟩
            rw [h1.2]
            exact pairCount_addMessage_ne st.db _ cid i hne
          · exact ⟨by simpa using hnm, by simp [pairCount_setCampaign]⟩
          · exact runLoop_pair_skip env cid bid dq i rest
              { st with quota := st.quota + 1, failed := st.failed + 1,
                        attempts := st.attempts ++ [c.id] } hp hnm
          · exact runLoop_pair_skip env cid bid dq i rest
              { st with quota := st.quota + 1, failed := st.failed + 1,
                        attempts := st.attempts ++ [c.id] } hp hnm

theorem runLoop_quota_denies (env : WorkerEnv) (cid bid dq : Nat) :
    ∀ (l : List Contact) (st : LoopState),
      dq ≤ st.quota →
      (∃ c ∈ l, env.refreshStatus c.id = "Active" ∧ pairExistsB st.db cid c.id = false) →
      runLoop env cid bid dq l st =
        ({ st with
            db := setCampaign st.db cid
              (fun k => { k with status := "Paused", status_reason := some "Quota reached." }),
            quota := st.quota + 1 },
         some .pausedQuota)
  | [], _, _, hex => absurd hex (by simp)
  | c :: rest, st, hq, hex => by
    simp only [runLoop]
    split
    · next hskip =>
      have hbne : env.refreshStatus c.id ≠ "Active" := by simpa [bne_iff_ne] using hskip
      have hex2 : ∃ x ∈ rest, env.refreshStatus x.id = "Active" ∧
          pairExistsB st.db cid x.id = false := by
        rcases hex with ⟨x, hx, h1, h2⟩
        rcases List.mem_cons.mp hx with rfl | hx2
        · exact absurd h1 hbne
        · exact ⟨x, hx2, h1, h2⟩
      exact runLoop_quota_denies env cid bid dq rest st hq hex2
    · split
      · next hpc =>
        have hex2 : ∃ x ∈ rest, env.refreshStatus x.id = "Active" ∧
            pairExistsB st.db cid x.id = false := by
          rcases hex with ⟨x, hx, h1, h2⟩
          rcases List.mem_cons.mp hx with rfl | hx2
          · rw [h2] at hpc
            exact absurd hpc Bool.false_ne_true
          · exact ⟨x, hx2, h1, h2⟩
        exact runLoop_quota_denies env cid bid dq rest st hq hex2
      · rw [if_pos (Nat.lt_succ_of_le hq)]

theorem runLoop_campaign_row (env : WorkerEnv) (cid bid dq : Nat) :
    ∀ (l : List Contact) (st : LoopState),
      ((runLoop env cid bid dq l st).2 = none →
        findCampaign (runLoop env cid bid dq l st).1.db cid = findCampaign st.db cid) ∧
      ((runLoop env cid bid dq l st).2 = some .pausedQuota →
        findCampaign (runLoop env cid bid dq l st).1.db cid =
          (findCampaign st.db cid).map
            (fun k => { k with status := "Paused", status_reason := some "Quota reached." })) ∧
      ((runLoop env cid bid dq l st).2 = some .paused429 →
        findCampaign (runLoop env cid bid dq l st).1.db cid =
          (findCampaign st.db cid).map (fun k => { k with status := "Paused" })) ∧
      ((runLoop env cid bid dq l st).2 = none ∨
       (runLoop env cid bid dq l st).2 = some .pausedQuota ∨
       (runLoop env cid bid dq l st).2 = some .paused429)
  | [], st => ⟨fun _ => rfl, fun h => by simp [runLoop] at h,
      fun h => by simp [runLoop] at h, Or.inl rfl⟩
  | c :: rest, st => by
    simp only [runLoop]
    split
    · exact runLoop_campaign_row env cid bid dq rest st
    · split
      · exact runLoop_campaign_row env cid bid dq rest st
      · split
        · refine ⟨fun h => by simp at h, fun _ => ?_, fun h => by simp at h,
            Or.inr (Or.inl rfl)⟩
          exact findCampaign_setCampaign st.db cid _ (fun _ => rfl)
        · split
          · next mid heq =>
            have h1 := runLoop_campaign_row env cid bid dq rest
              { st with db := addMessage st.db ⟨bid, c.id, some cid, some mid, "Out", "Sent"⟩,
                        quota := st.quota + 1, sent := st.sent + 1,
                        attempts := st.attempts ++ [c.id] }
            exact ⟨h1.1, h1.2.1, h1.2.2.1, h1.2.2.2⟩
          · refine ⟨fun h => by simp at h, fun h => by simp at h, fun _ => ?_,
              Or.inr (Or.inr rfl)⟩
            exact findCampaign_setCampaign st.db cid _ (fun _ => rfl)
          · exact runLoop_campaign_row env cid bid dq rest
              { st with quota := st.quota + 1, failed := st.failed + 1,
                        attempts := st.attempts ++ [c.id] }
          · exact runLoop_campaign_row env cid bid dq rest
              { st with quota := st.quota + 1, failed := st.failed + 1,
                        attempts := st.attempts ++ [c.id] }

theorem runLoop_failed_le (env : WorkerEnv) (cid bid dq : Nat) :
    ∀ (l : List Contact) (st : LoopState),
      st.failed ≤ (runLoop env cid bid dq l st).1.failed
  | [], _ => Nat.le_refl _
  | c :: rest, st => by
    simp only [runLoop]
    split
    · exact runLoop_failed_le env cid bid dq rest st
    · split
      · exact runLoop_failed_le env cid bid dq rest st
      · split
        · exact Nat.le_refl _
        · split
          · next mid heq =>
            exact runLoop_failed_le env cid bid dq rest
              { st with db := addMessage st.db ⟨bid, c.id, some cid, some mid, "Out", "Sent"⟩,
                        quota := st.quota + 1, sent := st.sent + 1,
                        attempts := st.attempts ++ [c.id] }
          · exact Nat.le_refl _
          · exact Nat.le_trans (Nat.le_succ _)
              (runLoop_failed_le env cid bid dq rest
                { st with quota := st.quota + 1, failed := st.failed + 1,
                          attempts := st.attempts ++ [c.id] })
          · exact Nat.le_trans (Nat.le_succ _)
              (runLoop_failed_le env cid bid dq rest
                { st with quota := st.quota + 1, failed := st.failed + 1,
                          attempts := st.attempts ++ [c.id] })

theorem runLoop_msgs_no_ok (env : WorkerEnv) (cid bid dq i : Nat)
    (hs : ∀ s, env.send i ≠ .ok s) :
    ∀ (l : List Contact) (st : LoopState),
      msgsForContact (runLoop env cid bid dq l st).1.db i = msgsForContact st.db i
  | [], _ => rfl
  | c :: rest, st => by
    simp only [runLoop]
    split
    · exact runLoop_msgs_no_ok env cid bid dq i hs rest st
    · split
      · exact runLoop_msgs_no_ok env cid bid dq i hs rest st
      · split
        · exact msgsForContact_setCampaign _ _ _ _
        · split
          · next mid heq =>
            have hne : c.id ≠ i := by
              intro he
              rw [he] at heq
              exact hs mid heq
            have h1 := runLoop_msgs_no_ok env cid bid dq i hs rest
              { st with db := addMessage st.db ⟨bid, c.id, some cid, some mid, "Out", "Sent"⟩,
                        quota := st.quota + 1, sent := st.sent + 1,
                        attempts := st.attempts ++ [c.id] }
            rw [h1]
            exact msgsForContact_addMessage_ne st.db _ i hne
          · exact msgsForContact_setCampaign _ _ _ _
          · exact runLoop_msgs_no_ok env cid bid dq i hs rest _
          · exact runLoop_msgs_no_ok env cid bid dq i hs rest _

theorem runLoop_completion_attempts (env : WorkerEnv) (cid bid dq i : Nat) :
    ∀ (l : List Contact) (st : LoopState),
      (runLoop env cid bid dq l st).2 = none →
      (∃ c ∈ l, c.id = i) →
      env.refreshStatus i = "Active" →
      pairExistsB st.db cid i = false →
      i ∈ (runLoop env cid bid dq l st).1.attempts
  | [], st, _, hex, _, _ => absurd hex (by simp)
  | c :: rest, st, hnone, hex, href, hpf => by
    simp only [runLoop] at hnone ⊢
    by_cases h1 : env.refreshStatus c.id = "Active"
    case neg =>
      have hb : (env.refreshStatus c.id != "Active") = true := by
        simpa [bne_iff_ne] using h1
      rw [if_pos hb] at hnone ⊢
      have hex2 : ∃ x ∈ rest, x.id = i := by
        rcases hex with ⟨x, hx, hxi⟩
        rcases List.mem_cons.mp hx with rfl | hx2
        · exact absurd (hxi ▸ href) h1
        · exact ⟨x, hx2, hxi⟩
      exact runLoop_completion_attempts env cid bid dq i rest st hnone hex2 href hpf
    case pos =>
      have hnb : ¬((env.refreshStatus c.id != "Active") = true) := by
        simp [bne_iff_ne, h1]
      rw [if_neg hnb] at hnone ⊢
      by_cases h2 : pairExistsB st.db cid c.id = true
      · rw [if_pos h2] at hnone ⊢
        have hex2 : ∃ x ∈ rest, x.id = i := by
          rcases hex with ⟨x, hx, hxi⟩
          rcases List.mem_cons.mp hx with rfl | hx2
          · rw [hxi] at h2
            rw [hpf] at h2
            exact absurd h2 Bool.false_ne_true
          · exact ⟨x, hx2, hxi⟩
        exact runLoop_completion_attempts env cid bid dq i rest st hnone hex2 href hpf
      · rw [if_neg h2] at hnone ⊢
        by_cases h3 : dq < st.quota + 1
        · rw [if_pos h3] at hnone
          simp at hnone
        · rw [if_neg h3] at hnone ⊢
          cases hsend : env.send c.id with
          | ok mid =>
            simp only [hsend] at hnone ⊢
            by_cases hci : c.id = i
            · exact runLoop_attempts_mem env cid bid dq rest _ i (by simp [hci])
            · have hex2 : ∃ x ∈ rest, x.id = i := by
                rcases hex with ⟨x, hx, hxi⟩
                rcases List.mem_cons.mp hx with rfl | hx2
                · exact absurd hxi hci
                · exact ⟨x, hx2, hxi⟩
              have hpf2 : pairExistsB
                  (addMessage st.db ⟨bid, c.id, some cid, some mid, "Out", "Sent"⟩) cid i = false := by
                rw [pairExistsB_addMessage_ne st.db _ cid i hci]
                exact hpf
              exact runLoop_completion_attempts env cid bid dq i rest
                { st with db := addMessage st.db ⟨bid, c.id, some cid, some mid, "Out", "Sent"⟩,
                          quota := st.quota + 1, sent := st.sent + 1,
                          attempts := st.attempts ++ [c.id] } hnone hex2 href hpf2
          | rateLimited =>
            simp only [hsend] at hnone
            simp at hnone
          | httpFailure =>
            simp only [hsend] at hnone ⊢
            by_cases hci : c.id = i
            · exact runLoop_attempts_mem env cid bid dq rest _ i (by simp [hci])
            · have hex2 : ∃ x ∈ rest, x.id = i := by
                rcases hex with ⟨x, hx, hxi⟩
                rcases List.mem_cons.mp hx with rfl | hx2
                · exact absurd hxi hci
                · exact ⟨x, hx2, hxi⟩
              exact runLoop_completion_attempts env cid bid dq i rest
                { st with quota := st.quota + 1, failed := st.failed + 1,
                          attempts := st.attempts ++ [c.id] } hnone hex2 href hpf
          | netException =>
            simp only [hsend] at hnone ⊢
            by_cases hci : c.id = i
            · exact runLoop_attempts_mem env cid bid dq rest _ i (by simp [hci])
            · have hex2 : ∃ x ∈ rest, x.id = i := by
                rcases hex with ⟨x, hx, hxi⟩
                rcases List.mem_cons.mp hx with rfl | hx2
                · exact absurd hxi hci
                · exact ⟨x, hx2, hxi⟩
              exact runLoop_completion_attempts env cid bid dq i rest
                { st with quota := st.quota + 1, failed := st.failed + 1,
                          attempts := st.attempts ++ [c.id] } hnone hex2 href hpf

theorem runLoop_failed_attempt (env : WorkerEnv) (cid bid dq i : Nat)
    (hfail : env.send i = .httpFailure ∨ env.send i = .netException) :
    ∀ (l : List Contact) (st : LoopState),
      i ∉ st.attempts →
      i ∈ (runLoop env cid bid dq l st).1.attempts →
      st.failed < (runLoop env cid bid dq l st).1.failed
  | [], st, hna, hmem => absurd hmem hna
  | c :: rest, st, hna, hmem => by
    simp only [runLoop] at hmem ⊢
    by_cases h1 : (env.refreshStatus c.id != "Active") = true
    · rw [if_pos h1] at hmem ⊢
      exact runLoop_failed_attempt env cid bid dq i hfail rest st hna hmem
    · rw [if_neg h1] at hmem ⊢
      by_cases h2 : pairExistsB st.db cid c.id = true
      · rw [if_pos h2] at hmem ⊢
        exact runLoop_failed_attempt env cid bid dq i hfail rest st hna hmem
      · rw [if_neg h2] at hmem ⊢
        by_cases h3 : dq < st.quota + 1
        · rw [if_pos h3] at hmem ⊢
          exact absurd (by simpa using hmem) hna
        · rw [if_neg h3] at hmem ⊢
          cases hsend : env.send c.id with
          | ok mid =>
            simp only [hsend] at hmem ⊢
            by_cases hci : c.id = i
            · rw [hci] at hsend
              rcases hfail with h | h <;> rw [hsend] at h <;> exact absurd h (by simp)
            · have hna2 : i ∉ st.attempts ++ [c.id] := by
                simp only [List.mem_append, List.mem_singleton]
                rintro (h | h)
                · exact hna h
                · exact hci h.symm
              exact runLoop_failed_attempt env cid bid dq i hfail rest
                { st with db := addMessage st.db ⟨bid, c.id, some cid, some mid, "Out", "Sent"⟩,
                          quota := st.quota + 1, sent := st.sent + 1,
                          attempts := st.attempts ++ [c.id] } hna2 hmem
          | rateLimited =>
            simp only [hsend] at hmem
            have hci : i = c.id := by
              rcases (by simpa using hmem : i ∈ st.attempts ∨ i = c.id) with h | h
              · exact absurd h hna
              · exact h
            rw [← hci] at hsend
            rcases hfail with h | h <;> rw [hsend] at h <;> exact absurd h (by simp)
          | httpFailure =>
            simp only [hsend] at hmem ⊢
            exact Nat.lt_of_lt_of_le (Nat.lt_succ_self _)
              (runLoop_failed_le env cid bid dq rest
                { st with quota := st.quota + 1, failed := st.failed + 1,
                          attempts := st.attempts ++ [c.id] })
          | netException =>
            simp only [hsend] at hmem ⊢
            exact Nat.lt_of_lt_of_le (Nat.lt_succ_self _)
              (runLoop_failed_le env cid bid dq rest
                { st with quota := st.quota + 1, failed := st.failed + 1,
                          attempts := st.attempts ++ [c.id] })

/-! ### Webhook helper lemmas -/

theorem nodup_snoc {α : Type} (l : List α) (a : α) :
    (l ++ [a]).Nodup ↔ l.Nodup ∧ a ∉ l := by
  simp [List.nodup_append, List.disjoint_singleton]

theorem findBusinessByPhoneId_logs (db : DB) (l : List WebhookPayload) (p : String) :
    findBusinessByPhoneId { db with webhook_logs := l } p = findBusinessByPhoneId db p := rfl

theorem contactKeys_addMessage (db : DB) (m : Message) :
    contactKeys (addMessage db m) = contactKeys db := rfl

theorem contactKeys_setContactStatus (db : DB) (i : Nat) (s : String) :
    contactKeys (setContactStatus db i s) = contactKeys db := by
  unfold contactKeys setContactStatus
  show (db.contacts.map _).map _ = _
  induction db.contacts with
  | nil => rfl
  | cons c l ih =>
    by_cases h : c.id = i <;> simp [h] <;> simpa using ih

theorem msgIdCount_zero_not_mem (db : DB) (mid : String) (h : msgIdCount db mid = 0) :
    mid ∉ msgIds db := by
  unfold msgIdCount at h
  rw [List.length_eq_zero, List.filter_eq_nil_iff] at h
  unfold msgIds
  rw [List.mem_filterMap]
  rintro ⟨m, hm, hmeta⟩
  exact h m hm (by simp [hmeta])

theorem msgIdCount_pos_mem (db : DB) (mid : String) (h : msgIdCount db mid ≠ 0) :
    mid ∈ msgIds db := by
  unfold msgIdCount at h
  have h2 : db.messages.filter (fun m => m.meta_message_id == some mid) ≠ [] := by
    intro hnil
    rw [hnil] at h
    exact h rfl
  rcases List.exists_mem_of_ne_nil _ h2 with ⟨m, hm⟩
  rw [List.mem_filter] at hm
  unfold msgIds
  rw [List.mem_filterMap]
  exact ⟨m, hm.1, by simpa using hm.2⟩

theorem processInboundMsg_messages (biz : Business) (prof : Option String)
    (db : DB) (m : InboundMsg) :
    ∃ k, (processInboundMsg biz prof db m).messages =
      db.messages ++ [⟨biz.id, k, none, m.msg_id, "In", "Delivered"⟩] := by
  unfold processInboundMsg
  cases hfc : findContact db m.from_phone biz.id with
  | some c =>
    refine ⟨c.id, ?_⟩
    by_cases hstop : (normUpper m.text_body == "STOP") = true
    · simp [hstop, addMessage, setContactStatus]
    · simp [hstop, addMessage]
  | none =>
    refine ⟨freshContactId db, ?_⟩
    by_cases hstop : (normUpper m.text_body == "STOP") = true
    · simp [hstop, addMessage, setContactStatus]
    · simp [hstop, addMessage]

theorem processInboundMsg_contactKeys (biz : Business) (prof : Option String)
    (db : DB) (m : InboundMsg) :
    contactKeys (processInboundMsg biz prof db m) = contactKeys db ∨
    (contactKeys (processInboundMsg biz prof db m) =
        contactKeys db ++ [(biz.id, m.from_phone)] ∧
      findContact db m.from_phone biz.id = none) := by
  unfold processInboundMsg
  cases hfc : findContact db m.from_phone biz.id with
  | some c =>
    left
    dsimp only
    by_cases hstop : (normUpper m.text_body == "STOP") = true
    · rw [if_pos hstop, contactKeys_addMessage, contactKeys_setContactStatus]
    · rw [if_neg hstop, contactKeys_addMessage]
  | none =>
    right
    refine ⟨?_, rfl⟩
    dsimp only
    by_cases hstop : (normUpper m.text_body == "STOP") = true
    · rw [if_pos hstop, contactKeys_addMessage, contactKeys_setContactStatus]
      unfold contactKeys
      simp
    · rw [if_neg hstop, contactKeys_addMessage]
      unfold contactKeys
      simp

theorem processInboundMsg_businesses (biz : Business) (prof : Option String)
    (db : DB) (m : InboundMsg) :
    (processInboundMsg biz prof db m).businesses = db.businesses := by
  unfold processInboundMsg
  cases hfc : findContact db m.from_phone biz.id with
  | some c =>
    dsimp only
    by_cases hstop : (normUpper m.text_body == "STOP") = true
    · rw [if_pos hstop]; rfl
    · rw [if_neg hstop]; rfl
  | none =>
    dsimp only
    by_cases hstop : (normUpper m.text_body == "STOP") = true
    · rw [if_pos hstop]; rfl
    · rw [if_neg hstop]; rfl

theorem not_uniqueOk_msgs (dbw db0 : DB) (bizid k : Nat) (mid : String)
    (hmsgs : dbw.messages = db0.messages ++ [⟨bizid, k, none, some mid, "In", "Delivered"⟩])
    (hc : msgIdCount db0 mid ≠ 0) : ¬ uniqueOk dbw := by
  intro hu
  obtain ⟨h1, _⟩ := hu
  have hids : msgIds dbw = msgIds db0 ++ [mid] := by
    unfold msgIds
    rw [hmsgs]
    simp [List.filterMap_append]
  rw [hids, nodup_snoc] at h1
  exact h1.2 (msgIdCount_pos_mem db0 mid hc)

theorem msgIdCount_snoc (dbw db0 : DB) (bizid k : Nat) (mid : String)
    (hmsgs : dbw.messages = db0.messages ++ [⟨bizid, k, none, some mid, "In", "Delivered"⟩]) :
    msgIdCount dbw mid = msgIdCount db0 mid + 1 := by
  unfold msgIdCount
  rw [hmsgs]
  simp [List.filter_append]

theorem findContact_none_not_mem (db : DB) (phone : String) (bid : Nat)
    (h : findContact db phone bid = none) : (bid, phone) ∉ contactKeys db := by
  unfold findContact at h
  rw [List.find?_eq_none] at h
  unfold contactKeys
  rw [List.mem_map]
  rintro ⟨c, hc, hkey⟩
  have h1 : c.business_id = bid := congrArg Prod.fst hkey
  have h2 : c.phone_number = phone := congrArg Prod.snd hkey
  exact h c hc (by simp [h1, h2])

theorem uniqueOk_processInboundMsg (biz : Business) (prof : Option String)
    (db : DB) (m : InboundMsg) (mid : String)
    (hid : m.msg_id = some mid)
    (hu : uniqueOk db) (hf : msgIdCount db mid = 0) :
    uniqueOk (processInboundMsg biz prof db m) := by
  obtain ⟨k, hmsgs⟩ := processInboundMsg_messages biz prof db m
  rw [hid] at hmsgs
  constructor
  · have hids : msgIds (processInboundMsg biz prof db m) = msgIds db ++ [mid] := by
      unfold msgIds
      rw [hmsgs]
      simp [List.filterMap_append]
    rw [hids, nodup_snoc]
    exact ⟨hu.1, msgIdCount_zero_not_mem db mid hf⟩
  · rcases processInboundMsg_contactKeys biz prof db m with hk | ⟨hk, hnone⟩
    · rw [hk]
      exact hu.2
    · rw [hk, nodup_snoc]
      exact ⟨hu.2, findContact_none_not_mem db m.from_phone biz.id hnone⟩

theorem handle_single_msg (env : HookEnv) (raw : List Nat) (sig : Option String)
    (pnid phone mid text : String) (biz : Business) (db : DB)
    (hsig : verify_signature env.hmacHex raw sig = .ok true)
    (hparse : env.parseJson raw = some (singleMsgPayload pnid phone mid text))
    (hbiz : findBusinessByPhoneId db pnid = some biz) :
    handle_whatsapp_events env db raw sig =
      (HookResponse.ok200,
        if uniqueOk (processInboundMsg biz none
            { db with webhook_logs := db.webhook_logs ++ [singleMsgPayload pnid phone mid text] }
            ⟨phone, some mid, text⟩) then
          processInboundMsg biz none
            { db with webhook_logs := db.webhook_logs ++ [singleMsgPayload pnid phone mid text] }
            ⟨phone, some mid, text⟩
        else
          { db with webhook_logs := db.webhook_logs ++ [singleMsgPayload pnid phone mid text] }) := by
  unfold handle_whatsapp_events
  rw [hsig, hparse]
  unfold processEntries
  dsimp only
  have hwork : List.foldl (fun acc changes => List.foldl processValue acc changes)
      { db with webhook_logs := db.webhook_logs ++ [singleMsgPayload pnid phone mid text] }
      (singleMsgPayload pnid phone mid text).entries =
      processInboundMsg biz none
        { db with webhook_logs := db.webhook_logs ++ [singleMsgPayload pnid phone mid text] }
        ⟨phone, some mid, text⟩ := by
    show processValue
      { db with webhook_logs := db.webhook_logs ++ [singleMsgPayload pnid phone mid text] }
      ⟨some pnid, none, [⟨phone, some mid, text⟩], []⟩ = _
    unfold processValue
    dsimp only
    rw [show findBusinessByPhoneId
        { db with webhook_logs := db.webhook_logs ++ [singleMsgPayload pnid phone mid text] } pnid =
        some biz from hbiz]
    rfl
  rw [hwork]
  split <;> rfl

/-! ### Claim theorems: campaign worker -/

/-- C2: a contact with status `Opt-out` never receives an outbound send
from the worker: it is excluded by the eligible-contact query (which keeps
only `Active` contacts), and the status re-read by `db.refresh` just
before each send suppresses the send of a contact that opted out
concurrently.  In either case no send is dispatched for the contact and
its message rows are unchanged. -/
theorem C2_optout_never_sent (env : WorkerEnv) (cid bid : Nat) (db : DB) (q i : Nat)
    (h : (∀ c ∈ db.contacts, c.id = i → c.status = "Opt-out") ∨
         env.refreshStatus i = "Opt-out") :
    i ∉ (send_bulk_campaign env cid bid db q).attempts ∧
    msgsForContact (send_bulk_campaign env cid bid db q).db i = msgsForContact db i := by
  cases hc : findCampaign db cid with
  | none =>
    unfold send_bulk_campaign
    rw [hc]
    simp
  | some camp =>
    cases hb : findBusiness db bid with
    | none =>
      unfold send_bulk_campaign
      rw [hc, hb]
      simp
    | some biz =>
      have hl : ∀ c ∈ eligibleContacts
          (setCampaign db cid (fun k => { k with status := "Running" })) camp bid,
          c.id = i → env.refreshStatus i ≠ "Active" := by
        intro c hcmem hci
        rw [eligibleContacts_setCampaign] at hcmem
        rcases h with hAll | hOpt
        · have hm := mem_eligible hcmem
          have hOO := hAll c hm.1 hci
          rw [hOO] at hm
          exact absurd hm.2 (by decide)
        · rw [hOpt]; decide
      rcases hr : runLoop env cid bid biz.daily_quota
          (eligibleContacts (setCampaign db cid (fun k => { k with status := "Running" })) camp bid)
          ⟨setCampaign db cid (fun k => { k with status := "Running" }), q,
            camp.total_sent.getD 0, camp.total_failed.getD 0, []⟩ with ⟨st, e⟩
      have hmain := runLoop_skips env cid bid biz.daily_quota i
        (eligibleContacts (setCampaign db cid (fun k => { k with status := "Running" })) camp bid)
        ⟨setCampaign db cid (fun k => { k with status := "Running" }), q,
          camp.total_sent.getD 0, camp.total_failed.getD 0, []⟩
        hl (by simp)
      rw [hr] at hmain
      rw [send_bulk_campaign_loop env cid bid db q camp biz st e hc hb hr]
      cases e with
      | none =>
        refine ⟨hmain.1, ?_⟩
        calc msgsForContact (setCampaign st.db cid _) i
            = msgsForContact st.db i := msgsForContact_setCampaign _ _ _ _
          _ = msgsForContact db i := hmain.2
      | some r =>
        exact ⟨hmain.1, hmain.2⟩

/-- Witness for C2 at a concrete input: with every refreshed status
reading `Opt-out`, contact 1 of the concrete database is neither attempted
nor given a message row. -/
theorem C2_optout_never_sent_w :
    1 ∉ (send_bulk_campaign envOpt 1 1 dbW 0).attempts ∧
    msgsForContact (send_bulk_campaign envOpt 1 1 dbW 0).db 1 = msgsForContact dbW 1 :=
  C2_optout_never_sent envOpt 1 1 dbW 0 1 (Or.inr rfl)

/-- C4: with the tenant's `daily_quota` at 250 and the Redis counter
already at 250 for the day, the next contact that passes the skip checks
is denied: the counter is incremented (to 251) before any send, the
campaign transitions to `Paused` with `status_reason` set to
`"Quota reached."`, the loop returns immediately (no send is dispatched
and no ledger row is written), and the increment is not rolled back. -/
theorem C4_quota_denies_251st (env : WorkerEnv) (cid bid : Nat) (db : DB) (q : Nat)
    (camp : Campaign) (biz : Business)
    (hc : findCampaign db cid = some camp) (hb : findBusiness db bid = some biz)
    (hq : biz.daily_quota = 250) (h0 : q = 250)
    (hex : ∃ c ∈ eligibleContacts db camp bid,
      env.refreshStatus c.id = "Active" ∧ pairExistsB db cid c.id = false) :
    statusOf (send_bulk_campaign env cid bid db q).db cid = some "Paused" ∧
    reasonOf (send_bulk_campaign env cid bid db q).db cid = some "Quota reached." ∧
    (send_bulk_campaign env cid bid db q).quota = 251 ∧
    (send_bulk_campaign env cid bid db q).attempts = [] ∧
    (send_bulk_campaign env cid bid db q).db.messages = db.messages ∧
    (send_bulk_campaign env cid bid db q).retval = .pausedQuota := by
  have hL := runLoop_quota_denies env cid bid biz.daily_quota
    (eligibleContacts (setCampaign db cid (fun k => { k with status := "Running" })) camp bid)
    ⟨setCampaign db cid (fun k => { k with status := "Running" }), q,
      camp.total_sent.getD 0, camp.total_failed.getD 0, []⟩
    (by rw [hq, h0]) hex
  rw [send_bulk_campaign_loop env cid bid db q camp biz _ _ hc hb hL]
  have hfc : findCampaign
      (setCampaign
        (setCampaign db cid (fun k => { k with status := "Running" })) cid
        (fun k => { k with status := "Paused", status_reason := some "Quota reached." })) cid =
      some { camp with status := "Paused", status_reason := some "Quota reached." } := by
    rw [findCampaign_setCampaign
      (setCampaign db cid (fun k => { k with status := "Running" })) cid
      (fun k => { k with status := "Paused", status_reason := some "Quota reached." })
      (fun _ => rfl)]
    rw [findCampaign_setCampaign db cid (fun k => { k with status := "Running" })
      (fun _ => rfl)]
    rw [hc]
    rfl
  dsimp only
  refine ⟨?_, ?_, by rw [h0], rfl, rfl, rfl⟩
  · unfold statusOf
    rw [hfc]
    rfl
  · unfold reasonOf
    rw [hfc]
    rfl

/-- Witness for C4 at a concrete input: a tenant with `daily_quota = 250`,
the counter at 250, one active contact; the run pauses with the quota
reason, the counter ends at 251, and nothing is sent. -/
theorem C4_quota_denies_251st_w :
    statusOf (send_bulk_campaign envOk 1 1 dbW250 250).db 1 = some "Paused" ∧
    reasonOf (send_bulk_campaign envOk 1 1 dbW250 250).db 1 = some "Quota reached." ∧
    (send_bulk_campaign envOk 1 1 dbW250 250).quota = 251 ∧
    (send_bulk_campaign envOk 1 1 dbW250 250).attempts = [] ∧
    (send_bulk_campaign envOk 1 1 dbW250 250).db.messages = dbW250.messages ∧
    (send_bulk_campaign envOk 1 1 dbW250 250).retval = .pausedQuota :=
  C4_quota_denies_251st envOk 1 1 dbW250 250 campW bizW250 rfl rfl rfl rfl (by decide)

/-- C5: a `(campaign, contact)` pair that already has a ledger row is
skipped by the worker: the contact is never attempted in the new run
segment and the number of rows for the pair is unchanged, so a second row
for the pair is never created on resume. -/
theorem C5_resume_idempotent (env : WorkerEnv) (cid bid : Nat) (db : DB) (q i : Nat)
    (h : pairExistsB db cid i = true) :
    i ∉ (send_bulk_campaign env cid bid db q).attempts ∧
    pairCount (send_bulk_campaign env cid bid db q).db cid i = pairCount db cid i := by
  cases hc : findCampaign db cid with
  | none =>
    unfold send_bulk_campaign
    rw [hc]
    simp
  | some camp =>
    cases hb : findBusiness db bid with
    | none =>
      unfold send_bulk_campaign
      rw [hc, hb]
      simp
    | some biz =>
      rcases hr : runLoop env cid bid biz.daily_quota
          (eligibleContacts (setCampaign db cid (fun k => { k with status := "Running" })) camp bid)
          ⟨setCampaign db cid (fun k => { k with status := "Running" }), q,
            camp.total_sent.getD 0, camp.total_failed.getD 0, []⟩ with ⟨st, e⟩
      have hmain := runLoop_pair_skip env cid bid biz.daily_quota i
        (eligibleContacts (setCampaign db cid (fun k => { k with status := "Running" })) camp bid)
        ⟨setCampaign db cid (fun k => { k with status := "Running" }), q,
          camp.total_sent.getD 0, camp.total_failed.getD 0, []⟩
        h (by simp)
      rw [hr] at hmain
      rw [send_bulk_campaign_loop env cid bid db q camp biz st e hc hb hr]
      cases e with
      | none =>
        refine ⟨hmain.1, ?_⟩
        calc pairCount (setCampaign st.db cid _) cid i
            = pairCount st.db cid i := pairCount_setCampaign _ _ _ _ _
          _ = pairCount db cid i := hmain.2
      | some r =>
        exact ⟨hmain.1, hmain.2⟩

/-- Witness for C5 at a concrete input: campaign 1 already has a row for
contact 1 from an earlier segment; the re-run skips contact 1 and leaves
its pair count at one row. -/
theorem C5_resume_idempotent_w :
    1 ∉ (send_bulk_campaign envOk 1 1 dbWPair 0).attempts ∧
    pairCount (send_bulk_campaign envOk 1 1 dbWPair 0).db 1 1 = pairCount dbWPair 1 1 :=
  C5_resume_idempotent envOk 1 1 dbWPair 0 1 (by decide)

/-- C7 (amended): of the campaign's transitions into `Paused` or `Error`,
only the quota-exhaustion pause writes `status_reason` (setting it to
`"Quota reached."`); the provider rate-limit (HTTP 429) pause leaves
`status_reason` exactly as it was.  In every run the reason is either
unchanged or equal to `"Quota reached."`. -/
theorem C7_status_reason_only_quota (env : WorkerEnv) (cid bid : Nat) (db : DB) (q : Nat) :
    (reasonOf (send_bulk_campaign env cid bid db q).db cid = reasonOf db cid ∨
     reasonOf (send_bulk_campaign env cid bid db q).db cid = some "Quota reached.") ∧
    ((send_bulk_campaign env cid bid db q).retval = .pausedQuota →
      statusOf (send_bulk_campaign env cid bid db q).db cid = some "Paused" ∧
      reasonOf (send_bulk_campaign env cid bid db q).db cid = some "Quota reached.") ∧
    ((send_bulk_campaign env cid bid db q).retval = .paused429 →
      statusOf (send_bulk_campaign env cid bid db q).db cid = some "Paused" ∧
      reasonOf (send_bulk_campaign env cid bid db q).db cid = reasonOf db cid) := by
  cases hc : findCampaign db cid with
  | none =>
    unfold send_bulk_campaign
    rw [hc]
    exact ⟨Or.inl rfl, fun h => absurd h (by simp), fun h => absurd h (by simp)⟩
  | some camp =>
    cases hb : findBusiness db bid with
    | none =>
      unfold send_bulk_campaign
      rw [hc, hb]
      exact ⟨Or.inl rfl, fun h => absurd h (by simp), fun h => absurd h (by simp)⟩
    | some biz =>
      rcases hr : runLoop env cid bid biz.daily_quota
          (eligibleContacts (setCampaign db cid (fun k => { k with status := "Running" })) camp bid)
          ⟨setCampaign db cid (fun k => { k with status := "Running" }), q,
            camp.total_sent.getD 0, camp.total_failed.getD 0, []⟩ with ⟨st, e⟩
      have hrow := runLoop_campaign_row env cid bid biz.daily_quota
        (eligibleContacts (setCampaign db cid (fun k => { k with status := "Running" })) camp bid)
        ⟨setCampaign db cid (fun k => { k with status := "Running" }), q,
          camp.total_sent.getD 0, camp.total_failed.getD 0, []⟩
      rw [hr] at hrow
      obtain ⟨hN, hQ, h429, hcase⟩ := hrow
      have hst0 : findCampaign (setCampaign db cid (fun k => { k with status := "Running" })) cid
          = some { camp with status := "Running" } := by
        rw [findCampaign_setCampaign db cid (fun k => { k with status := "Running" })
          (fun _ => rfl), hc]
        rfl
      rw [send_bulk_campaign_loop env cid bid db q camp biz st e hc hb hr]
      cases e with
      | none =>
        have hfc : findCampaign st.db cid = some { camp with status := "Running" } := by
          have hx := hN rfl
          rw [hst0] at hx
          simpa using hx
        have hfc2 : findCampaign (setCampaign st.db cid
            (fun k => { k with status := "Completed",
                               total_sent := some st.sent, total_failed := some st.failed })) cid
            = some { camp with status := "Completed",
                               total_sent := some st.sent, total_failed := some st.failed } := by
          rw [findCampaign_setCampaign st.db cid
            (fun k => { k with status := "Completed",
                               total_sent := some st.sent, total_failed := some st.failed })
            (fun _ => rfl), hfc]
          rfl
        refine ⟨Or.inl ?_, fun h => absurd h (by simp), fun h => absurd h (by simp)⟩
        dsimp only
        unfold reasonOf
        rw [hfc2, hc]
        rfl
      | some r =>
        rcases hcase with hcn | hcq | hc4
        · simp at hcn
        · have hrq : r = .pausedQuota := by simpa using hcq
          subst hrq
          have hfc : findCampaign st.db cid =
              some { camp with status := "Paused", status_reason := some "Quota reached." } := by
            have hx := hQ rfl
            rw [hst0] at hx
            simpa using hx
          refine ⟨Or.inr ?_, fun _ => ⟨?_, ?_⟩, fun h => absurd h (by simp)⟩
          · dsimp only
            unfold reasonOf
            rw [hfc]
            rfl
          · dsimp only
            unfold statusOf
            rw [hfc]
            rfl
          · dsimp only
            unfold reasonOf
            rw [hfc]
            rfl
        · have hr4 : r = .paused429 := by simpa using hc4
          subst hr4
          have hfc : findCampaign st.db cid = some { camp with status := "Paused" } := by
            have hx := h429 rfl
            rw [hst0] at hx
            simpa using hx
          refine ⟨Or.inl ?_, fun h => absurd h (by simp), fun _ => ⟨?_, ?_⟩⟩
          · dsimp only
            unfold reasonOf
            rw [hfc, hc]
            rfl
          · dsimp only
            unfold statusOf
            rw [hfc]
            rfl
          · dsimp only
            unfold reasonOf
            rw [hfc, hc]
            rfl

/-- Witness for C7 (amended) at a concrete input: a run that exhausts the
quota ends `Paused` with `status_reason = "Quota reached."`. -/
theorem C7_status_reason_only_quota_w :
    statusOf (send_bulk_campaign envOk 1 1 dbW 10).db 1 = some "Paused" ∧
    reasonOf (send_bulk_campaign envOk 1 1 dbW 10).db 1 = some "Quota reached." :=
  (C7_status_reason_only_quota envOk 1 1 dbW 10).2.1 (by decide)

/-- C7 counterexample: a run whose first send is answered with HTTP 429
transitions the campaign from `Running` to `Paused` with `status_reason`
still unset (`none`), so not every transition into `Paused` sets a
non-empty cause description. -/
theorem C7_counterexample_429_no_reason :
    (send_bulk_campaign env429 1 1 dbW 0).retval = .paused429 ∧
    statusOf (send_bulk_campaign env429 1 1 dbW 0).db 1 = some "Paused" ∧
    reasonOf (send_bulk_campaign env429 1 1 dbW 0).db 1 = none := by decide

/-- C10: a contact whose send never returns HTTP 200 gets no ledger row
from the run; a run segment that completes attempts every eligible
contact whose refreshed status is `Active` and that has no
`(campaign, contact)` row — in particular a contact that failed in an
earlier segment; and a contact attempted with a non-429 failure strictly
increases the failure counter above the persisted baseline. -/
theorem C10_failed_send_retried (env : WorkerEnv) (cid bid : Nat) (db : DB) (q i : Nat) :
    ((∀ s, env.send i ≠ .ok s) →
      msgsForContact (send_bulk_campaign env cid bid db q).db i = msgsForContact db i) ∧
    (∀ camp, findCampaign db cid = some camp →
      (∃ c ∈ eligibleContacts db camp bid, c.id = i) →
      env.refreshStatus i = "Active" →
      pairExistsB db cid i = false →
      (∃ s, (send_bulk_campaign env cid bid db q).retval = RunRetval.success s) →
      i ∈ (send_bulk_campaign env cid bid db q).attempts) ∧
    (∀ camp, findCampaign db cid = some camp →
      i ∈ (send_bulk_campaign env cid bid db q).attempts →
      (env.send i = .httpFailure ∨ env.send i = .netException) →
      camp.total_failed.getD 0 < (send_bulk_campaign env cid bid db q).failedCount) := by
  cases hc : findCampaign db cid with
  | none =>
    unfold send_bulk_campaign
    rw [hc]
    refine ⟨fun _ => rfl, fun camp hcamp => ?_, fun camp hcamp => ?_⟩ <;>
      exact absurd hcamp (by simp)
  | some camp0 =>
    cases hb : findBusiness db bid with
    | none =>
      unfold send_bulk_campaign
      rw [hc, hb]
      refine ⟨fun _ => rfl, fun camp hcamp hex href hpf hsucc => ?_, fun camp hcamp hmem => ?_⟩
      · rcases hsucc with ⟨s, hs⟩
        simp at hs
      · exact absurd hmem (by simp)
    | some biz =>
      rcases hr : runLoop env cid bid biz.daily_quota
          (eligibleContacts (setCampaign db cid (fun k => { k with status := "Running" })) camp0 bid)
          ⟨setCampaign db cid (fun k => { k with status := "Running" }), q,
            camp0.total_sent.getD 0, camp0.total_failed.getD 0, []⟩ with ⟨st, e⟩
      have hrow4 := (runLoop_campaign_row env cid bid biz.daily_quota
        (eligibleContacts (setCampaign db cid (fun k => { k with status := "Running" })) camp0 bid)
        ⟨setCampaign db cid (fun k => { k with status := "Running" }), q,
          camp0.total_sent.getD 0, camp0.total_failed.getD 0, []⟩).2.2.2
      rw [hr] at hrow4
      rw [send_bulk_campaign_loop env cid bid db q camp0 biz st e hc hb hr]
      refine ⟨?_, ?_, ?_⟩
      · intro hs
        have hmsg := runLoop_msgs_no_ok env cid bid biz.daily_quota i hs
          (eligibleContacts (setCampaign db cid (fun k => { k with status := "Running" })) camp0 bid)
          ⟨setCampaign db cid (fun k => { k with status := "Running" }), q,
            camp0.total_sent.getD 0, camp0.total_failed.getD 0, []⟩
        rw [hr] at hmsg
        cases e with
        | none =>
          dsimp only
          rw [msgsForContact_setCampaign]
          exact hmsg
        | some r =>
          dsimp only
          exact hmsg
      · intro camp hcamp hex href hpf hsucc
        have hceq : camp0 = camp := Option.some.inj hcamp
        subst hceq
        cases e with
        | some r =>
          rcases hsucc with ⟨s, hs⟩
          dsimp only at hs
          rcases hrow4 with h1 | h1 | h1
          · simp at h1
          · have hx : r = .pausedQuota := by simpa using h1
            subst hx
            simp at hs
          · have hx : r = .paused429 := by simpa using h1
            subst hx
            simp at hs
        | none =>
          have hattempt := runLoop_completion_attempts env cid bid biz.daily_quota i
            (eligibleContacts (setCampaign db cid (fun k => { k with status := "Running" })) camp0 bid)
            ⟨setCampaign db cid (fun k => { k with status := "Running" }), q,
              camp0.total_sent.getD 0, camp0.total_failed.getD 0, []⟩
            (by rw [hr]) hex href hpf
          rw [hr] at hattempt
          dsimp only
          exact hattempt
      · intro camp hcamp hmem hfail
        have hceq : camp0 = camp := Option.some.inj hcamp
        subst hceq
        cases e with
        | some r =>
          dsimp only at hmem ⊢
          have hlt := runLoop_failed_attempt env cid bid biz.daily_quota i hfail
            (eligibleContacts (setCampaign db cid (fun k => { k with status := "Running" })) camp0 bid)
            ⟨setCampaign db cid (fun k => { k with status := "Running" }), q,
              camp0.total_sent.getD 0, camp0.total_failed.getD 0, []⟩
            (by simp) (by rw [hr]; exact hmem)
          rw [hr] at hlt
          exact hlt
        | none =>
          dsimp only at hmem ⊢
          have hlt := runLoop_failed_attempt env cid bid biz.daily_quota i hfail
            (eligibleContacts (setCampaign db cid (fun k => { k with status := "Running" })) camp0 bid)
            ⟨setCampaign db cid (fun k => { k with status := "Running" }), q,
              camp0.total_sent.getD 0, camp0.total_failed.getD 0, []⟩
            (by simp) (by rw [hr]; exact hmem)
          rw [hr] at hlt
          exact hlt

/-- Witness for C10 at a concrete input: contact 1's send fails with a
non-429 error, so it gets no ledger row, it is attempted (dispatched)
in the completing segment, and the failure counter exceeds the persisted
baseline of 0. -/
theorem C10_failed_send_retried_w :
    msgsForContact (send_bulk_campaign envFail1 1 1 dbW 0).db 1 = msgsForContact dbW 1 ∧
    1 ∈ (send_bulk_campaign envFail1 1 1 dbW 0).attempts ∧
    0 < (send_bulk_campaign envFail1 1 1 dbW 0).failedCount := by
  have h := C10_failed_send_retried envFail1 1 1 dbW 0 1
  refine ⟨h.1 ?_, h.2.1 campW rfl (by decide) rfl (by decide) ⟨1, by decide⟩, ?_⟩
  · intro s hs
    simp [envFail1] at hs
  · have hx := h.2.2 campW rfl
      (h.2.1 campW rfl (by decide) rfl (by decide) ⟨1, by decide⟩) (Or.inl rfl)
    simpa [campW] using hx

/-- C3 is contradicted by the code: a campaign paused by a 429 in segment
one does not persist its local `sent_count`/`failed_count` (the pause
paths never write `total_sent`/`total_failed`), so after the resumed
segment completes, `total_sent + total_failed = 1 + 0` although two
distinct eligible contacts were attempted across the two segments
(contact 1 sent in segment one and skipped afterwards, contact 2
attempted in both segments and sent in segment two). -/
theorem C3_completed_totals_undercount :
    statusOf runSeg2.db 1 = some "Completed" ∧
    (findCampaign runSeg2.db 1).bind (fun c => c.total_sent) = some 1 ∧
    (findCampaign runSeg2.db 1).bind (fun c => c.total_failed) = some 0 ∧
    (runSeg1.attempts ++ runSeg2.attempts).dedup.length = 2 ∧
    ((findCampaign runSeg2.db 1).bind (fun c => c.total_sent)).getD 0 +
        ((findCampaign runSeg2.db 1).bind (fun c => c.total_failed)).getD 0 ≠
      (runSeg1.attempts ++ runSeg2.attempts).dedup.length := by decide

/-! ### Claim theorems: webhook ingestor, trigger endpoint, handshake -/

/-- C1 counterexample: the per-item inbound-message processing does not
skip an item whose provider id already has a stored Message row — on a
database already holding a row with id `m1`, processing a value carrying
an inbound message with id `m1` stages a second row (the staged table
grows from one row to two) instead of leaving it unchanged. -/
theorem C1_counterexample_no_skip :
    msgIdCount dbHookDup "m1" = 1 ∧
    (processValue dbHookDup ⟨some "pn1", none, [⟨"555", some "m1", "hello"⟩], []⟩).messages.length = 2 := by
  decide

/-- C1 (amended): the ingestor always stages a new inbound Message row;
idempotency comes from the unique constraint on `meta_message_id`
together with the all-or-nothing final commit.  For a correctly-signed
single-message payload with a fresh provider id, the first submission
stores exactly one row with that id, and resubmitting the identical
payload makes the final commit fail and roll back, leaving the message
ledger unchanged (only a new audit-log row is added); both requests are
acknowledged with the success response. -/
theorem C1_duplicate_submission_one_row (env : HookEnv) (db : DB) (raw : List Nat)
    (sig : Option String) (pnid phone mid text : String) (biz : Business)
    (hu : uniqueOk db)
    (hfresh : msgIdCount db mid = 0)
    (hbiz : findBusinessByPhoneId db pnid = some biz)
    (hsig : verify_signature env.hmacHex raw sig = .ok true)
    (hparse : env.parseJson raw = some (singleMsgPayload pnid phone mid text)) :
    (handle_whatsapp_events env db raw sig).1 = .ok200 ∧
    msgIdCount (handle_whatsapp_events env db raw sig).2 mid = 1 ∧
    (handle_whatsapp_events env (handle_whatsapp_events env db raw sig).2 raw sig).1 = .ok200 ∧
    (handle_whatsapp_events env (handle_whatsapp_events env db raw sig).2 raw sig).2.messages =
      (handle_whatsapp_events env db raw sig).2.messages := by
  have h1 := handle_single_msg env raw sig pnid phone mid text biz db hsig hparse hbiz
  have hwu : uniqueOk (processInboundMsg biz none
      { db with webhook_logs := db.webhook_logs ++ [singleMsgPayload pnid phone mid text] }
      ⟨phone, some mid, text⟩) :=
    uniqueOk_processInboundMsg biz none
      { db with webhook_logs := db.webhook_logs ++ [singleMsgPayload pnid phone mid text] }
      ⟨phone, some mid, text⟩ mid rfl hu hfresh
  rw [h1, if_pos hwu]
  obtain ⟨k, hmsgs⟩ := processInboundMsg_messages biz none
    { db with webhook_logs := db.webhook_logs ++ [singleMsgPayload pnid phone mid text] }
    ⟨phone, some mid, text⟩
  have hcount1 : msgIdCount (processInboundMsg biz none
      { db with webhook_logs := db.webhook_logs ++ [singleMsgPayload pnid phone mid text] }
      ⟨phone, some mid, text⟩) mid = 1 := by
    rw [msgIdCount_snoc _ _ biz.id k mid hmsgs]
    rw [show msgIdCount
      { db with webhook_logs := db.webhook_logs ++ [singleMsgPayload pnid phone mid text] } mid = 0
      from hfresh]
  have hbiz2 : findBusinessByPhoneId (processInboundMsg biz none
      { db with webhook_logs := db.webhook_logs ++ [singleMsgPayload pnid phone mid text] }
      ⟨phone, some mid, text⟩) pnid = some biz := by
    unfold findBusinessByPhoneId
    rw [processInboundMsg_businesses]
    exact hbiz
  have h2 := handle_single_msg env raw sig pnid phone mid text biz
    (processInboundMsg biz none
      { db with webhook_logs := db.webhook_logs ++ [singleMsgPayload pnid phone mid text] }
      ⟨phone, some mid, text⟩) hsig hparse hbiz2
  obtain ⟨k2, hmsgs2⟩ := processInboundMsg_messages biz none
    { processInboundMsg biz none
        { db with webhook_logs := db.webhook_logs ++ [singleMsgPayload pnid phone mid text] }
        ⟨phone, some mid, text⟩ with
      webhook_logs := (processInboundMsg biz none
        { db with webhook_logs := db.webhook_logs ++ [singleMsgPayload pnid phone mid text] }
        ⟨phone, some mid, text⟩).webhook_logs ++ [singleMsgPayload pnid phone mid text] }
    ⟨phone, some mid, text⟩
  have hdup : ¬ uniqueOk (processInboundMsg biz none
      { processInboundMsg biz none
          { db with webhook_logs := db.webhook_logs ++ [singleMsgPayload pnid phone mid text] }
          ⟨phone, some mid, text⟩ with
        webhook_logs := (processInboundMsg biz none
          { db with webhook_logs := db.webhook_logs ++ [singleMsgPayload pnid phone mid text] }
          ⟨phone, some mid, text⟩).webhook_logs ++ [singleMsgPayload pnid phone mid text] }
      ⟨phone, some mid, text⟩) := by
    refine not_uniqueOk_msgs _ _ biz.id k2 mid hmsgs2 ?_
    rw [show msgIdCount
        { processInboundMsg biz none
            { db with webhook_logs := db.webhook_logs ++ [singleMsgPayload pnid phone mid text] }
            ⟨phone, some mid, text⟩ with
          webhook_logs := (processInboundMsg biz none
            { db with webhook_logs := db.webhook_logs ++ [singleMsgPayload pnid phone mid text] }
            ⟨phone, some mid, text⟩).webhook_logs ++ [singleMsgPayload pnid phone mid text] } mid =
        msgIdCount (processInboundMsg biz none
          { db with webhook_logs := db.webhook_logs ++ [singleMsgPayload pnid phone mid text] }
          ⟨phone, some mid, text⟩) mid from rfl]
    rw [hcount1]
    simp
  rw [h2, if_neg hdup]
  exact ⟨rfl, hcount1, rfl, rfl⟩

/-- Witness for C1 (amended) at a concrete input: submitting the concrete
signed single-message payload twice against the one-tenant database stores
exactly one row with provider id `mid1`, and the duplicate submission
leaves the ledger unchanged. -/
theorem C1_duplicate_submission_one_row_w :
    (handle_whatsapp_events envHook dbHook [] (some "sha256=sig")).1 = .ok200 ∧
    msgIdCount (handle_whatsapp_events envHook dbHook [] (some "sha256=sig")).2 "mid1" = 1 ∧
    (handle_whatsapp_events envHook
      (handle_whatsapp_events envHook dbHook [] (some "sha256=sig")).2 [] (some "sha256=sig")).1 =
      .ok200 ∧
    (handle_whatsapp_events envHook
        (handle_whatsapp_events envHook dbHook [] (some "sha256=sig")).2 []
        (some "sha256=sig")).2.messages =
      (handle_whatsapp_events envHook dbHook [] (some "sha256=sig")).2.messages :=
  C1_duplicate_submission_one_row envHook dbHook [] (some "sha256=sig")
    "pn1" "555" "mid1" "hello" bizW (by decide) rfl rfl rfl rfl

/-- C6 (amended): a webhook POST whose signature header is absent, empty,
or fails the digest comparison is rejected before the body is parsed and
before any persistence: the database is unchanged and the response is the
authentication error 403 — except that a header containing more than one
`=` makes `verify_signature` raise an uncaught `ValueError`, an HTTP 500
rather than an authentication error, still with no parsing and no
persistence.  The outcome does not depend on the JSON parser at all
(any two environments with the same digest function agree), which shows
the rejection happens before the body is parsed. -/
theorem C6_invalid_signature_rejected (env : HookEnv) (db : DB) (raw : List Nat)
    (sig : Option String)
    (h : verify_signature env.hmacHex raw sig ≠ .ok true) :
    (handle_whatsapp_events env db raw sig).2 = db ∧
    ((handle_whatsapp_events env db raw sig).1 = .forbidden403 ∨
     (handle_whatsapp_events env db raw sig).1 = .serverError500) ∧
    ((handle_whatsapp_events env db raw sig).1 = .serverError500 ↔
      verify_signature env.hmacHex raw sig = .valueError) ∧
    (∀ env2 : HookEnv, env2.hmacHex = env.hmacHex →
      handle_whatsapp_events env2 db raw sig = handle_whatsapp_events env db raw sig) := by
  unfold handle_whatsapp_events
  cases hv : verify_signature env.hmacHex raw sig with
  | valueError =>
    refine ⟨rfl, Or.inr rfl, by simp, ?_⟩
    intro env2 he
    rw [show verify_signature env2.hmacHex raw sig = .valueError from by rw [he]; exact hv]
  | ok b =>
    cases b with
    | false =>
      refine ⟨rfl, Or.inl rfl, by simp, ?_⟩
      intro env2 he
      rw [show verify_signature env2.hmacHex raw sig = .ok false from by rw [he]; exact hv]
    | true => exact absurd hv h

/-- Witness for C6 (amended) at a concrete input: a POST with no signature
header at all leaves the database unchanged and is answered with 403. -/
theorem C6_invalid_signature_rejected_w :
    (handle_whatsapp_events envHook dbHook [] none).2 = dbHook ∧
    ((handle_whatsapp_events envHook dbHook [] none).1 = .forbidden403 ∨
     (handle_whatsapp_events envHook dbHook [] none).1 = .serverError500) :=
  ⟨(C6_invalid_signature_rejected envHook dbHook [] none (by decide)).1,
   (C6_invalid_signature_rejected envHook dbHook [] none (by decide)).2.1⟩

/-- C6 counterexample: a signature header containing two `=` characters
(which can never equal `sha256=` followed by a hex digest, so the digest
does not match) is not rejected with an authentication error: the
two-name unpacking of `signature.split('=')` raises `ValueError`, an
HTTP 500.  No persistence happens either way. -/
theorem C6_counterexample_500_not_403 :
    verify_signature envHook.hmacHex [] (some "sha256=a=b") = .valueError ∧
    handle_whatsapp_events envHook dbHook [] (some "sha256=a=b") = (.serverError500, dbHook) ∧
    HookResponse.serverError500 ≠ HookResponse.forbidden403 := by
  decide

/-- C8 counterexample: triggering campaign 1, which is already `Running`,
is neither rejected nor a no-op: the endpoint answers with the success
response, resets the status to `Queued`, and enqueues another worker
job. -/
theorem C8_counterexample_retrigger_running :
    (trigger_campaign_send dbWRunning 1 1).response = .queuedOk ∧
    statusOf (trigger_campaign_send dbWRunning 1 1).db 1 = some "Queued" ∧
    (trigger_campaign_send dbWRunning 1 1).enqueuedJobs = [(1, 1)] := by
  decide

/-- C8 (amended): the trigger endpoint rejects only campaigns whose
status is exactly `"Sent"` (a value no other component of the pipeline
writes); for a campaign in any other status — including `Queued` and
`Running` — it sets the status to `Queued` again and enqueues another
Runner job. -/
theorem C8_trigger_rejects_only_sent (db : DB) (cid uid : Nat) (camp : Campaign)
    (h : db.campaigns.find? (fun c => c.id == cid && c.business_id == uid) = some camp) :
    (camp.status = "Sent" →
      trigger_campaign_send db cid uid = ⟨db, .alreadyProcessed400, []⟩) ∧
    (camp.status ≠ "Sent" →
      trigger_campaign_send db cid uid =
        ⟨setCampaign db cid (fun k => { k with status := "Queued" }), .queuedOk, [(cid, uid)]⟩) := by
  unfold trigger_campaign_send
  rw [h]
  dsimp only
  constructor
  · intro hs
    rw [if_pos (by simp [hs])]
  · intro hs
    rw [if_neg (by simp [hs])]

/-- Witness for C8 (amended) at a concrete input: the `Running` campaign
is re-queued and a second job is enqueued. -/
theorem C8_trigger_rejects_only_sent_w :
    trigger_campaign_send dbWRunning 1 1 =
      ⟨setCampaign dbWRunning 1 (fun k => { k with status := "Queued" }), .queuedOk, [(1, 1)]⟩ :=
  (C8_trigger_rejects_only_sent dbWRunning 1 1 campRunning rfl).2 (by decide)

/-- C9 counterexample: on a valid handshake (`mode=subscribe`, matching
token) with challenge `"007"`, the handler returns `int("007") = 7`, whose
response body is `"7"` — not the challenge value verbatim. -/
theorem C9_counterexample_not_verbatim :
    verify_meta_webhook "tok" (some "subscribe") (some "tok") (some "007") = .challenge 7 ∧
    renderChallenge (verify_meta_webhook "tok" (some "subscribe") (some "tok") (some "007")) =
      some "7" ∧
    some "7" ≠ some "007" := by
  decide

/-- C9 (amended): on `mode=subscribe` with the matching verify token the
handler responds with `int(challenge)` — the challenge parsed as a decimal
integer, whose canonical rendering is the body, equal to the received
challenge only when the challenge is already canonical; any other
mode/token combination is answered with the authentication-failure status
403. -/
theorem C9_handshake_int_challenge (vt : String) (mode token challenge : Option String) :
    (¬(mode = some "subscribe" ∧ token = some vt) →
      verify_meta_webhook vt mode token challenge = .forbidden403) ∧
    (∀ c n, mode = some "subscribe" → token = some vt → challenge = some c →
      pyIntOfString c = some n →
      verify_meta_webhook vt mode token challenge = .challenge n ∧
      renderChallenge (verify_meta_webhook vt mode token challenge) = some (toString n)) := by
  constructor
  · intro h
    unfold verify_meta_webhook
    have hb : ¬((mode == some "subscribe" && token == some vt) = true) := by
      intro hbt
      have hsplit : (mode == some "subscribe") = true ∧ (token == some vt) = true := by
        simpa using hbt
      exact h ⟨beq_iff_eq.mp hsplit.1, beq_iff_eq.mp hsplit.2⟩
    rw [if_neg hb]
  · intro c n hm ht hc hp
    subst hm
    subst ht
    subst hc
    unfold verify_meta_webhook
    rw [if_pos (by simp)]
    dsimp only
    rw [hp]
    exact ⟨rfl, rfl⟩

/-- Witness for C9 (amended) at a concrete input: the canonical challenge
`"123456789"` (the repository's own handshake test value) round-trips
verbatim through the int conversion. -/
theorem C9_handshake_int_challenge_w :
    verify_meta_webhook "tok" (some "subscribe") (some "tok") (some "123456789") =
      .challenge 123456789 ∧
    renderChallenge (verify_meta_webhook "tok" (some "subscribe") (some "tok")
      (some "123456789")) = some "123456789" := by
  have h := (C9_handshake_int_challenge "tok" (some "subscribe") (some "tok")
    (some "123456789")).2 "123456789" 123456789 rfl rfl rfl (by decide)
  exact ⟨h.1, by rw [h.2]; decide⟩
